import Mathlib

/-!
# Verification of the lifecycle orchestration engine

A shallow embedding of the phase-driven lifecycle engine implemented in
`app/lifecycle` (class `LifecycleEngine`, file `src/unnamed/part_001`), together
with theorems settling the specification claims about it.

Modelling conventions:

* The engine's instance fields become the fields of the `LifecycleEngine`
  structure; each method becomes a Lean function threading that state
  explicitly and additionally returning the list of observable `EngineAction`s
  it performs (module invocations, event emissions, observer-hook calls,
  retry sleeps, context phase transitions).
* A thrown JS exception becomes an `Option`/error component of the result;
  `none` means normal return, `some e` means the exception `e` propagates to
  the caller.
* Wall-clock quantities (`Date.now()` timestamps, measured durations, the
  float duration statistics) are outside the embedding; the statistics model
  keeps the integer counters only.  The per-module timeout race is absorbed
  into the module's per-attempt outcome: a timed-out attempt and a throwing
  attempt are both failed attempts, which is the only distinction the
  orchestration logic consumes.
* A module's `execute` body is arbitrary user code; it is abstracted into
  `execOutcome : Nat → Bool`, giving the success/failure of the attempt with
  the given zero-based attempt index.  Module reads/writes of the context
  data map do not influence any orchestration decision in the source and are
  omitted.  The interface (`LifecycleModule` in `types/lifecycle.ts`) also
  declares `initialize`, `cleanup`, `getStatus` and the `isInitialized` flag;
  the engine file contains no call site of any of them, which is exactly
  what the `EngineAction.moduleSetup` constructor lets us state: no engine
  operation ever constructs it.
* Event listener fan-out (`notifyListeners`) involves JS promise scheduling;
  it is modelled separately at the end of the file, where the microtask
  ordering of the event loop is made explicit.
-/

namespace DjangoDome

/-- The six lifecycle phases (`LifecyclePhase` in `types/lifecycle.ts`),
in their fixed declaration order. -/
inductive LifecyclePhase
  | initialization
  | preparation
  | validation
  | execution
  | monitoring
  | cleanup
  deriving DecidableEq, Repr

/-- Engine states (`LifecycleState` in `types/lifecycle.ts`). -/
inductive LifecycleState
  | uninitialized
  | preparing
  | running
  | paused
  | stopped
  | error
  deriving DecidableEq, Repr

/-- Event severity levels (`EventLevel` in `types/lifecycle.ts`). -/
inductive EventLevel
  | debug
  | info
  | warn
  | error
  | critical
  deriving DecidableEq, Repr

/-- Result of one phase execution (`ExecutionResult` in `types/lifecycle.ts`),
used in the `finally` step of `executePhase` to pick the statistics bucket. -/
inductive ExecutionResult
  | success
  | failure
  deriving DecidableEq, Repr

/-- A lifecycle event as stored in history and in the context
(`LifecycleEvent`).  `id` models the `event_${++eventCounter}` id by its
numeric part; the free-form `type` tag and the severity `level` are kept;
timestamp, human-readable name/description and payload do not influence any
orchestration decision and are omitted. -/
structure LifecycleEvent where
  id : Nat
  phase : LifecyclePhase
  type : String
  level : EventLevel
  deriving DecidableEq, Repr

/-- A registered module (`LifecycleModule` interface).  `execOutcome n` is the
outcome of the `(n+1)`-st `execute` attempt issued by one `executeModule`
call (`true` = the promise resolves before the timeout, `false` = it rejects
or times out).  `isInitialized` is the module's own "has been set up" flag;
the engine never reads or writes it (no call site exists in
`src/unnamed/part_001`). -/
structure LifecycleModule where
  name : String
  version : String
  phase : LifecyclePhase
  isInitialized : Bool
  execOutcome : Nat → Bool

/-- An observer (`LifecycleObserver`): a bundle of optional named callbacks.
`hooks` lists the method names the observer actually defines
(e.g. `onPreparationStart`, `onError`); `typeof observer[m] === 'function'`
is modelled by membership in this list. -/
structure LifecycleObserver where
  hooks : List String

/-- The run-scoped context (`LifecycleContext`), restricted to the fields the
engine itself reads or writes: the phase markers, the accumulated event list
and the accumulated error list.  The key/value data map is only ever touched
by modules (abstracted away) and its operations decide nothing in the
engine.  Errors are identified by the name of the module whose failure
produced them (the engine stores the error object opaquely). -/
structure LifecycleContext where
  currentPhase : LifecyclePhase
  previousPhase : Option LifecyclePhase
  events : List LifecycleEvent
  errors : List String
  deriving DecidableEq, Repr

/-- Engine configuration (`Required<LifecycleConfig>` after the constructor
merge). -/
structure LifecycleConfig where
  enableParallel : Bool
  phaseTimeout : Nat
  enableDebugLogging : Bool
  continueOnError : Bool
  maxRetries : Nat
  retryDelay : Nat
  saveHistory : Bool
  maxHistorySize : Nat

/-- The constructor defaults (`LifecycleEngine` constructor, lines 89-99). -/
def defaultConfig : LifecycleConfig :=
  { enableParallel := false
    phaseTimeout := 30000
    enableDebugLogging := false
    continueOnError := false
    maxRetries := 3
    retryDelay := 1000
    saveHistory := true
    maxHistorySize := 1000 }

/-- Per-phase statistics (`PhaseStatistics`), integer counters only; the
duration fields are wall-clock derived and omitted. -/
structure PhaseStatistics where
  executionCount : Nat
  successCount : Nat
  failureCount : Nat
  deriving DecidableEq, Repr

/-- Global statistics (`LifecycleStats`), integer counters only. -/
structure LifecycleStats where
  totalExecutions : Nat
  successfulExecutions : Nat
  failedExecutions : Nat
  phaseStats : LifecyclePhase → PhaseStatistics

/-- The engine's instance fields (class `LifecycleEngine`).  The module
registry `Map<LifecyclePhase, LifecycleModule[]>` is modelled as a total
function defaulting to `[]`, matching `this.modules.get(phase) || []`.
Listeners are modelled separately (see the event-loop model at the end of
the file); they have no effect on any engine field. -/
structure LifecycleEngine where
  state : LifecycleState
  currentPhase : Option LifecyclePhase
  modules : LifecyclePhase → List LifecycleModule
  observers : List LifecycleObserver
  eventHistory : List LifecycleEvent
  stats : LifecycleStats
  config : LifecycleConfig
  context : Option LifecycleContext
  eventCounter : Nat

/-- Errors that escape an engine method.  `invalidState` models the guard
throws (`throw new Error('引擎已初始化，无法重复初始化')`,
`throw new Error('引擎状态不正确，无法启动')`), which the spec calls
`InvalidStateError`; `moduleFailure` models a module failure propagating out
of the retry loop, identified by the failing module's name. -/
inductive EngineError
  | invalidState (msg : String)
  | moduleFailure (moduleName : String)
  deriving DecidableEq, Repr

/-- Observable actions of the engine, in the order they are performed.
`moduleSetup` would be a call to a module's `initialize` — the engine source
contains no such call, so no definition below ever constructs it.
`ctxTransition prev cur` records the two context assignments
`context.previousPhase = context.currentPhase; context.currentPhase = phase`
at the top of `executePhase`. -/
inductive EngineAction
  | emit (phase : LifecyclePhase) (type : String) (level : EventLevel)
  | moduleSetup (name : String)
  | moduleExecute (name : String) (attempt : Nat)
  | sleep (ms : Nat)
  | observerHook (methodName : String)
  | observerError (phase : LifecyclePhase)
  | ctxTransition (prev : LifecyclePhase) (cur : LifecyclePhase)
  deriving DecidableEq, Repr

/-- Source `createContext` (lines 150-172): phase markers from the engine's current
phase (falling back to Initialization), empty event and error lists. -/
def createContext (es : LifecycleEngine) : LifecycleContext :=
  { currentPhase := es.currentPhase.getD .initialization
    previousPhase := none
    events := []
    errors := [] }

/-- Source `getContext` (lines 137-142): lazily create the context on first use. -/
def getContext (es : LifecycleEngine) : LifecycleEngine × LifecycleContext :=
  match es.context with
  | some c => (es, c)
  | none =>
      let c := createContext es
      ({ es with context := some c }, c)

/-- Source `logEvent` (lines 180-214): build the full event with the next counter
value, append it to the bounded history (evicting the oldest entry with
`shift()` once the length exceeds `maxHistorySize`), append it to the live
context's event list when a context exists, and fan out to listeners
(modelled separately).  Every engine call site passes an explicit phase (the
`||` fallbacks of call sites that pass `this.currentPhase || INITIALIZATION`
are computed at those call sites below, as in the source). -/
def logEvent (es : LifecycleEngine) (phase : LifecyclePhase) (ty : String)
    (level : EventLevel) : LifecycleEngine × EngineAction :=
  let ev : LifecycleEvent :=
    { id := es.eventCounter + 1, phase := phase, type := ty, level := level }
  let hist :=
    if es.config.saveHistory then
      let h := es.eventHistory ++ [ev]
      if h.length > es.config.maxHistorySize then h.tail else h
    else es.eventHistory
  let ctx := es.context.map fun c => { c with events := c.events ++ [ev] }
  ({ es with eventCounter := es.eventCounter + 1, eventHistory := hist, context := ctx },
   .emit phase ty level)

/-- Source `getPhaseMethodName` (lines 743-753). -/
def getPhaseMethodName : LifecyclePhase → String
  | .initialization => "Initialization"
  | .preparation => "Preparation"
  | .validation => "Validation"
  | .execution => "Execution"
  | .monitoring => "Monitoring"
  | .cleanup => "Cleanup"

/-- The check `typeof (observer as ...)[methodName] === 'function'`. -/
def observerHasMethod (o : LifecycleObserver) (methodName : String) : Bool :=
  o.hooks.contains methodName

/-- Source `notifyObserversByMethod` (lines 683-700): call the named method on every
observer that defines it (one `observerHook` action per such observer). -/
def notifyObserversByMethod (es : LifecycleEngine) (methodName : String) :
    List EngineAction :=
  (es.observers.filter fun o => observerHasMethod o methodName).map
    fun _ => .observerHook methodName

/-- The string-keyed properties reachable on the `Set` iterator object
returned by `this.observers.values()`: `next` on the iterator prototype plus
the `Object.prototype` methods.  This is the universe the JS `in`
operator consults in `onStartMethod in this.observers.values()`
(lines 490 and 507); no computed hook name (`on...Start` / `on...Complete`)
is among them. -/
def setIteratorStringProps : List String :=
  ["next", "constructor", "hasOwnProperty", "isPrototypeOf",
   "propertyIsEnumerable", "toLocaleString", "toString", "valueOf"]

/-- The guard expression `methodName in this.observers.values()` of
`executePhase`: property membership on the Set iterator object. -/
def methodInObserversValues (methodName : String) : Bool :=
  setIteratorStringProps.contains methodName

/-- Source `notifyObserversError` (lines 709-724): invoke `onError(error, phase)` on
every observer defining it.  (The source does not await the promise this
async method returns, but each observer's `onError` is invoked
synchronously inside it.) -/
def notifyObserversError (es : LifecycleEngine) (phase : LifecyclePhase) :
    List EngineAction :=
  (es.observers.filter fun o => observerHasMethod o "onError").map
    fun _ => .observerError phase

/-- Source `handlePhaseError` (lines 638-656): push the error on the context's error
list, emit the `phase_error` event at Error level, notify the error hooks. -/
def handlePhaseError (es : LifecycleEngine) (errName : String)
    (phase : LifecyclePhase) : LifecycleEngine × List EngineAction :=
  let es := { es with
    context := es.context.map fun c => { c with errors := c.errors ++ [errName] } }
  let (es, a) := logEvent es phase "phase_error" .error
  (es, [a] ++ notifyObserversError es phase)

/-- Source `handleLifecycleError` (lines 664-675): emit the Critical-level
`lifecycle_error` event, tagged `this.currentPhase || INITIALIZATION`. -/
def handleLifecycleError (es : LifecycleEngine) : LifecycleEngine × List EngineAction :=
  let (es, a) := logEvent es (es.currentPhase.getD .initialization)
    "lifecycle_error" .critical
  (es, [a])

/-- The body of the retry loop of `executeModule` (lines 565-629), written as
structural recursion on the fuel `maxRetries + 1 - retries`.  The loop
condition `retries <= maxRetries` holds exactly when the fuel is positive
(`retries` starts at `0`, and the loop only re-enters after checking
`retries + 1 <= maxRetries`), so the `0`-fuel case is the loop exiting
normally, which the source treats as success.  Each iteration: emit the
Debug `module_execute_start` event, race `module.execute(context)` against
the timeout (the attempt's outcome is `m.execOutcome retries`); on success
emit the Debug completion event and break; on failure increment `retries`
and either (budget exhausted) emit the Error-level failure event and
re-raise, or emit the Warn-level retry event, wait `retryDelay`, and try
again.  Events are tagged with `module.phase` (line 566), not with the
phase whose runner invoked the module.  The third component is `none` for
normal return and `some m.name` for the re-raised failure. -/
def executeModuleGo (cfg : LifecycleConfig) (m : LifecycleModule) :
    Nat → Nat → LifecycleEngine → LifecycleEngine × List EngineAction × Option String
  | _, 0, es => (es, [], none)
  | retries, fuel + 1, es =>
      let (es, a1) := logEvent es m.phase "module_execute_start" .debug
      let execA := EngineAction.moduleExecute m.name retries
      if m.execOutcome retries then
        let (es, a2) := logEvent es m.phase "module_execute_complete" .debug
        (es, [a1, execA, a2], none)
      else
        if retries + 1 > cfg.maxRetries then
          let (es, a2) := logEvent es m.phase "module_execute_failed" .error
          (es, [a1, execA, a2], some m.name)
        else
          let (es, a2) := logEvent es m.phase "module_execute_retry" .warn
          let (es, rest, r) := executeModuleGo cfg m (retries + 1) fuel es
          (es, [a1, execA, a2, .sleep cfg.retryDelay] ++ rest, r)

/-- Source `executeModule` (lines 565-629): the retry loop entered with
`retries = 0`. -/
def executeModule (es : LifecycleEngine) (m : LifecycleModule) :
    LifecycleEngine × List EngineAction × Option String :=
  executeModuleGo es.config m 0 (es.config.maxRetries + 1) es

/-- The `for (const module of modules) await this.executeModule(...)` loop of
`executePhaseModules` (lines 548-556).  A failure propagating out of
`executeModule` propagates out of the loop: the remaining modules of the
list are not reached. -/
def runModules :
    LifecycleEngine → List LifecycleModule →
      LifecycleEngine × List EngineAction × Option String
  | es, [] => (es, [], none)
  | es, m :: rest =>
      let (es, tr, r) := executeModule es m
      match r with
      | none =>
          let (es, tr2, r2) := runModules es rest
          (es, tr ++ tr2, r2)
      | some msg => (es, tr, some msg)

/-- Source `executePhaseModules` (lines 548-556): run the modules registered to the
phase, in registration order, against the shared context. -/
def executePhaseModules (es : LifecycleEngine) (phase : LifecyclePhase) :
    LifecycleEngine × List EngineAction × Option String :=
  runModules es (es.modules phase)

/-- The `finally` block of `executePhase` (lines 525-539): bump the per-phase
counters (duration fields omitted as wall-clock). -/
def phaseStatsUpdate (st : LifecycleStats) (phase : LifecyclePhase)
    (r : ExecutionResult) : LifecycleStats :=
  { st with phaseStats := fun p =>
      if p = phase then
        let ps := st.phaseStats phase
        { ps with
          executionCount := ps.executionCount + 1
          successCount := ps.successCount + (if r = .success then 1 else 0)
          failureCount := ps.failureCount + (if r = .failure then 1 else 0) }
      else st.phaseStats p }

/-- Source `executePhase` (lines 478-540).  In source order: set the engine's
`currentPhase`; fetch (or lazily create) the context; record the phase
transition into the context (`previousPhase := currentPhase;
currentPhase := phase`); then, in the `try` block: the phase-start observer
notification guarded by `onStartMethod in this.observers.values()`, the
`phase_start` event, the phase's modules, the guarded phase-complete
notification, the `phase_complete` event.  On an exception from the modules:
`handlePhaseError`, and re-raise unless `continueOnError`.  The `finally`
statistics update runs on both paths.  The result is `none` when
`executePhase` returns normally (including a swallowed failure under
`continueOnError`) and `some name` when it re-raises. -/
def executePhase (es : LifecycleEngine) (phase : LifecyclePhase) :
    LifecycleEngine × List EngineAction × Option String :=
  let es := { es with currentPhase := some phase }
  let (es, c) := getContext es
  let c' := { c with previousPhase := some c.currentPhase, currentPhase := phase }
  let es := { es with context := some c' }
  let trans := EngineAction.ctxTransition c.currentPhase phase
  let onStartMethod := "on" ++ getPhaseMethodName phase ++ "Start"
  let aStart :=
    if methodInObserversValues onStartMethod then
      notifyObserversByMethod es onStartMethod
    else []
  let (es, a1) := logEvent es phase "phase_start" .info
  let (es, aMods, r) := executePhaseModules es phase
  match r with
  | none =>
      let onCompleteMethod := "on" ++ getPhaseMethodName phase ++ "Complete"
      let aComplete :=
        if methodInObserversValues onCompleteMethod then
          notifyObserversByMethod es onCompleteMethod
        else []
      let (es, a2) := logEvent es phase "phase_complete" .info
      let es := { es with stats := phaseStatsUpdate es.stats phase .success }
      (es, [trans] ++ aStart ++ [a1] ++ aMods ++ aComplete ++ [a2], none)
  | some msg =>
      let (es, aErr) := handlePhaseError es msg phase
      let es := { es with stats := phaseStatsUpdate es.stats phase .failure }
      (es, [trans] ++ aStart ++ [a1] ++ aMods ++ aErr,
       if es.config.continueOnError then none else some msg)

/-- The guard message of `initialize` (line 359). -/
def alreadyInitializedMsg : String := "引擎已初始化，无法重复初始化"

/-- The guard message of `start` (line 416). -/
def cannotStartMsg : String := "引擎状态不正确，无法启动"

/-- The engine state after the preamble of `initialize` (lines 363-372):
state `Preparing`, a fresh context, and the `initialization_start` event
logged.  (A named intermediate state; it performs no step of its own.) -/
def initEntryEngine (es : LifecycleEngine) : LifecycleEngine :=
  let es := { es with state := .preparing }
  let es := { es with context := some (createContext es) }
  (logEvent es .initialization "initialization_start" .info).1

/-- Source `initialize` (lines 357-397; `initialize` is reserved in Lean, hence the
name).  Reject unless `Uninitialized`; otherwise move to `Preparing`, create
the context, emit `initialization_start`, notify `onInitializationStart`
(directly via `notifyObservers`, with no membership guard), run the
Initialization-phase modules, notify `onInitializationComplete`, move to
`Stopped`, emit `initialization_complete`.  The `catch` block sets the state
to `Error`, runs `handlePhaseError` and re-raises.  (The literal `.emit`
actions are the `.2` components of the corresponding `logEvent` calls.) -/
def initEngine (es : LifecycleEngine) :
    LifecycleEngine × List EngineAction × Option EngineError :=
  if es.state ≠ .uninitialized then
    (es, [], some (.invalidState alreadyInitializedMsg))
  else
    let esE := initEntryEngine es
    let a1 : EngineAction := .emit .initialization "initialization_start" .info
    let aObs1 := notifyObserversByMethod esE "onInitializationStart"
    match executePhaseModules esE .initialization with
    | (esM, aMods, none) =>
        let aObs2 := notifyObserversByMethod esM "onInitializationComplete"
        let esM2 : LifecycleEngine := { esM with state := .stopped }
        ((logEvent esM2 .initialization "initialization_complete" .info).1,
         [a1] ++ aObs1 ++ aMods ++ aObs2 ++
           [.emit .initialization "initialization_complete" .info],
         none)
    | (esM, aMods, some msg) =>
        let esM2 : LifecycleEngine := { esM with state := .error }
        ((handlePhaseError esM2 msg .initialization).1,
         [a1] ++ aObs1 ++ aMods ++ (handlePhaseError esM2 msg .initialization).2,
         some (.moduleFailure msg))

/-- The fixed post-initialization phase order of `start` (lines 433-439). -/
def startPhaseOrder : List LifecyclePhase :=
  [.preparation, .validation, .execution, .monitoring, .cleanup]

/-- The `for (const phase of phases) await this.executePhase(phase)` loop of
`start` (lines 441-443): an exception re-raised by `executePhase` aborts the
remaining phases. -/
def runPhases :
    LifecycleEngine → List LifecyclePhase →
      LifecycleEngine × List EngineAction × Option String
  | es, [] => (es, [], none)
  | es, p :: rest =>
      let (es, tr, r) := executePhase es p
      match r with
      | none =>
          let (es, tr2, r2) := runPhases es rest
          (es, tr ++ tr2, r2)
      | some msg => (es, tr, some msg)

/-- Source `start` (lines 410-470; named `startEngine` to keep the claim statements
readable).  If `Uninitialized`, run the implicit `initialize` first (its
failure propagates from outside the `try` block, bypassing `start`'s own
`catch`).  Then reject unless `Stopped` or `Paused`.  Otherwise move to
`Running`, emit `lifecycle_start` (tagged Initialization), run the five
phases in order; on success bump the global success statistics, move to
`Stopped` and emit `lifecycle_complete` (tagged Cleanup); on a propagated
phase failure set `Error`, bump the global failure statistics, run
`handleLifecycleError` (the Critical event) and re-raise. -/
def startEngine (es : LifecycleEngine) :
    LifecycleEngine × List EngineAction × Option EngineError :=
  match (if es.state = .uninitialized then initEngine es else (es, [], none)) with
  | (es, tr0, some e) => (es, tr0, some e)
  | (es, tr0, none) =>
      if es.state ≠ .stopped ∧ es.state ≠ .paused then
        (es, tr0, some (.invalidState cannotStartMsg))
      else
        let esR : LifecycleEngine :=
          (logEvent { es with state := .running } .initialization
            "lifecycle_start" .info).1
        let a1 : EngineAction := .emit .initialization "lifecycle_start" .info
        match runPhases esR startPhaseOrder with
        | (esP, trP, none) =>
            let st := esP.stats
            let st := { st with
              totalExecutions := st.totalExecutions + 1
              successfulExecutions := st.successfulExecutions + 1 }
            let esP2 : LifecycleEngine := { esP with stats := st, state := .stopped }
            ((logEvent esP2 .cleanup "lifecycle_complete" .info).1,
             tr0 ++ [a1] ++ trP ++ [.emit .cleanup "lifecycle_complete" .info],
             none)
        | (esP, trP, some msg) =>
            let esP2 : LifecycleEngine := { esP with state := .error }
            let st := esP2.stats
            let st := { st with
              totalExecutions := st.totalExecutions + 1
              failedExecutions := st.failedExecutions + 1 }
            let esP3 : LifecycleEngine := { esP2 with stats := st }
            ((handleLifecycleError esP3).1,
             tr0 ++ [a1] ++ trP ++ (handleLifecycleError esP3).2,
             some (.moduleFailure msg))

/-- Zeroed statistics, as set up by the field initializer plus
`initializePhaseStats` (lines 63-72, 116-129). -/
def emptyStats : LifecycleStats :=
  { totalExecutions := 0
    successfulExecutions := 0
    failedExecutions := 0
    phaseStats := fun _ => ⟨0, 0, 0⟩ }

/-- The constructor (lines 88-109): default-merged configuration, empty
registry/history, no context, state `Uninitialized`, then the
`engine_created` Info event. -/
def mkEngine (cfg : LifecycleConfig) : LifecycleEngine :=
  let es : LifecycleEngine :=
    { state := .uninitialized
      currentPhase := none
      modules := fun _ => []
      observers := []
      eventHistory := []
      stats := emptyStats
      config := cfg
      context := none
      eventCounter := 0 }
  (logEvent es .initialization "engine_created" .info).1

/-- Source `registerModule` (lines 275-294): append the module to the registry list
of the *phase argument* (the module's own `phase` field is not consulted),
then emit the `module_registered` Info event tagged with the phase argument.
(The `typeof module.initialize !== 'function'` validity check cannot fail in
the model, where every `LifecycleModule` carries the full interface.) -/
def registerModule (es : LifecycleEngine) (phase : LifecyclePhase)
    (m : LifecycleModule) : LifecycleEngine × EngineAction :=
  let es := { es with modules := fun p =>
    if p = phase then es.modules p ++ [m] else es.modules p }
  logEvent es phase "module_registered" .info

/-- Source `addObserver` (lines 331-340); `Set.add` modelled as list append (the
claims never register the same observer twice). -/
def addObserver (es : LifecycleEngine) (o : LifecycleObserver) :
    LifecycleEngine × EngineAction :=
  let es := { es with observers := es.observers ++ [o] }
  logEvent es (es.currentPhase.getD .initialization) "observer_added" .debug

/-! ### Action classifiers used by the claim statements -/

/-- Is this action a call to a module's setup (`initialize`) operation? -/
def EngineAction.isSetup : EngineAction → Bool
  | .moduleSetup _ => true
  | _ => false

/-- Is this action a call to a module's run (`execute`) operation? -/
def EngineAction.isExec : EngineAction → Bool
  | .moduleExecute _ _ => true
  | _ => false

/-- Is this action a run invocation of the module with the given name? -/
def EngineAction.isExecOf (n : String) : EngineAction → Bool
  | .moduleExecute n' _ => n' == n
  | _ => false

/-- Is this action an event emission with the given type tag? -/
def EngineAction.isEmitType (t : String) : EngineAction → Bool
  | .emit _ ty _ => ty == t
  | _ => false

/-- Is this action an event emission at the given severity level? -/
def EngineAction.isEmitLevel (l : EventLevel) : EngineAction → Bool
  | .emit _ _ lv => lv == l
  | _ => false

/-- Is this action the context phase transition of a phase entry? -/
def EngineAction.isCtxTrans : EngineAction → Bool
  | .ctxTransition _ _ => true
  | _ => false

/-- Is this action an observer-hook invocation with the given method name? -/
def EngineAction.isHookNamed (n : String) : EngineAction → Bool
  | .observerHook n' => n' == n
  | _ => false

/-- Is this action an observer `onError` invocation? -/
def EngineAction.isObsError : EngineAction → Bool
  | .observerError _ => true
  | _ => false

/-- Is this action a retry-delay wait of the given duration? -/
def EngineAction.isSleepOf (d : Nat) : EngineAction → Bool
  | .sleep ms => ms == d
  | _ => false

/-! ### Basic facts about the embedded operations -/

@[simp]
theorem logEvent_act (es : LifecycleEngine) (p : LifecyclePhase) (t : String)
    (l : EventLevel) : (logEvent es p t l).2 = .emit p t l := rfl

/-- The context components the orchestration logic depends on: the phase
markers and the error list (the event list only ever grows). -/
def ctxShape : Option LifecycleContext →
    Option (LifecyclePhase × Option LifecyclePhase × List String) :=
  Option.map fun c => (c.currentPhase, c.previousPhase, c.errors)

theorem logEvent_fields (es : LifecycleEngine) (p : LifecyclePhase) (t : String)
    (l : EventLevel) :
    (logEvent es p t l).1.config = es.config ∧
    (logEvent es p t l).1.modules = es.modules ∧
    (logEvent es p t l).1.observers = es.observers ∧
    (logEvent es p t l).1.state = es.state ∧
    (logEvent es p t l).1.currentPhase = es.currentPhase ∧
    (logEvent es p t l).1.stats = es.stats ∧
    ctxShape (logEvent es p t l).1.context = ctxShape es.context := by
  refine ⟨rfl, rfl, rfl, rfl, rfl, rfl, ?_⟩
  simp only [logEvent, ctxShape]
  cases es.context <;> rfl

/-- Everything `executeModuleGo` does leaves the engine's configuration,
registry, observers, state, current phase, statistics, and the context's
error list unchanged (it only emits events). -/
theorem executeModuleGo_pres (cfg : LifecycleConfig) (m : LifecycleModule) :
    ∀ (f r : Nat) (es : LifecycleEngine),
    (executeModuleGo cfg m r f es).1.config = es.config ∧
    (executeModuleGo cfg m r f es).1.modules = es.modules ∧
    (executeModuleGo cfg m r f es).1.observers = es.observers ∧
    (executeModuleGo cfg m r f es).1.state = es.state ∧
    (executeModuleGo cfg m r f es).1.currentPhase = es.currentPhase ∧
    (executeModuleGo cfg m r f es).1.stats = es.stats ∧
    ctxShape (executeModuleGo cfg m r f es).1.context = ctxShape es.context := by
  intro f
  induction f with
  | zero => intro r es; exact ⟨rfl, rfl, rfl, rfl, rfl, rfl, rfl⟩
  | succ f ih =>
      intro r es
      simp only [executeModuleGo]
      rcases h : m.execOutcome r with _ | _
      · simp only [Bool.false_eq_true, if_false]
        by_cases hr : r + 1 > cfg.maxRetries
        · simp only [hr, if_true]
          have h1 := logEvent_fields es m.phase "module_execute_start" .debug
          have h2 := logEvent_fields (logEvent es m.phase "module_execute_start" .debug).1
            m.phase "module_execute_failed" .error
          obtain ⟨a1, b1, c1, d1, e1, f1, g1⟩ := h1
          obtain ⟨a2, b2, c2, d2, e2, f2, g2⟩ := h2
          exact ⟨a2.trans a1, b2.trans b1, c2.trans c1, d2.trans d1,
            e2.trans e1, f2.trans f1, g2.trans g1⟩
        · simp only [hr, if_false]
          have h1 := logEvent_fields es m.phase "module_execute_start" .debug
          have h2 := logEvent_fields (logEvent es m.phase "module_execute_start" .debug).1
            m.phase "module_execute_retry" .warn
          have h3 := ih (r + 1)
            (logEvent (logEvent es m.phase "module_execute_start" .debug).1
              m.phase "module_execute_retry" .warn).1
          obtain ⟨a1, b1, c1, d1, e1, f1, g1⟩ := h1
          obtain ⟨a2, b2, c2, d2, e2, f2, g2⟩ := h2
          obtain ⟨a3, b3, c3, d3, e3, f3, g3⟩ := h3
          exact ⟨a3.trans (a2.trans a1), b3.trans (b2.trans b1),
            c3.trans (c2.trans c1), d3.trans (d2.trans d1),
            e3.trans (e2.trans e1), f3.trans (f2.trans f1),
            g3.trans (g2.trans g1)⟩
      · simp only [if_true]
        have h1 := logEvent_fields es m.phase "module_execute_start" .debug
        have h2 := logEvent_fields (logEvent es m.phase "module_execute_start" .debug).1
          m.phase "module_execute_complete" .debug
        obtain ⟨a1, b1, c1, d1, e1, f1, g1⟩ := h1
        obtain ⟨a2, b2, c2, d2, e2, f2, g2⟩ := h2
        exact ⟨a2.trans a1, b2.trans b1, c2.trans c1, d2.trans d1,
          e2.trans e1, f2.trans f1, g2.trans g1⟩

/-- The actions of the `i`-th attempt (zero-based) of a module whose `run`
fails on every attempt: the Debug start event and the `execute` call, then
either the Warn retry event and the `retryDelay` wait (when retries remain)
or the Error failure event (on the final attempt). -/
def failSeg (cfg : LifecycleConfig) (m : LifecycleModule) (i : Nat) :
    List EngineAction :=
  [.emit m.phase "module_execute_start" .debug, .moduleExecute m.name i] ++
    (if i < cfg.maxRetries then
      [.emit m.phase "module_execute_retry" .warn, .sleep cfg.retryDelay]
    else
      [.emit m.phase "module_execute_failed" .error])

/-- The full action sequence of `executeModule` on a module whose `run` fails
on every attempt: attempts `0, 1, …, maxRetries`. -/
def alwaysFailTrace (cfg : LifecycleConfig) (m : LifecycleModule) :
    List EngineAction :=
  (List.range (cfg.maxRetries + 1)).bind (failSeg cfg m)

theorem executeModuleGo_fail_trace (cfg : LifecycleConfig) (m : LifecycleModule)
    (hf : ∀ n, m.execOutcome n = false) :
    ∀ (f r : Nat) (es : LifecycleEngine), r + f = cfg.maxRetries + 1 → 0 < f →
    (executeModuleGo cfg m r f es).2.1 =
      ((List.range f).map (· + r)).bind (failSeg cfg m) ∧
    (executeModuleGo cfg m r f es).2.2 = some m.name := by
  intro f
  induction f with
  | zero => intro r es _ h; exact absurd h (by omega)
  | succ f ih =>
      intro r es hsum _
      simp only [executeModuleGo, hf r, Bool.false_eq_true, if_false]
      rcases Nat.eq_zero_or_pos f with hf0 | hfpos
      · subst hf0
        have hr : r + 1 > cfg.maxRetries := by omega
        have hrm : ¬ r < cfg.maxRetries := by omega
        simp [hr, failSeg, hrm, List.range_succ]
      · have hr : ¬ r + 1 > cfg.maxRetries := by omega
        have hrm : r < cfg.maxRetries := by omega
        simp only [hr, if_false]
        obtain ⟨htr, hres⟩ := ih (r + 1)
          (logEvent (logEvent es m.phase "module_execute_start" .debug).1
            m.phase "module_execute_retry" .warn).1 (by omega) hfpos
        refine ⟨?_, hres⟩
        rw [htr, List.range_succ_eq_map]
        simp only [List.map_cons, List.map_map, List.cons_bind]
        have hmap : ((· + r) ∘ Nat.succ) = (· + (r + 1)) := by
          funext x; simp [Function.comp]; omega
        rw [hmap]
        simp [failSeg, hrm]

/-- Running `executeModule` on an always-failing module performs exactly the
`maxRetries + 1` attempts of `alwaysFailTrace` and re-raises. -/
theorem executeModule_fail (es : LifecycleEngine) (m : LifecycleModule)
    (hf : ∀ n, m.execOutcome n = false) :
    (executeModule es m).2.1 = alwaysFailTrace es.config m ∧
    (executeModule es m).2.2 = some m.name := by
  obtain ⟨htr, hres⟩ := executeModuleGo_fail_trace es.config m hf
    (es.config.maxRetries + 1) 0 es (by omega) (by omega)
  refine ⟨?_, hres⟩
  rw [executeModule] at *
  rw [htr, alwaysFailTrace]
  congr 1
  have : ((· + 0) : Nat → Nat) = id := by funext x; simp
  rw [this, List.map_id]

/-- Running `executeModule` on a module whose first attempt succeeds performs exactly
one attempt and returns normally. -/
theorem executeModule_succ0 (es : LifecycleEngine) (m : LifecycleModule)
    (h : m.execOutcome 0 = true) :
    (executeModule es m).2.1 =
      [.emit m.phase "module_execute_start" .debug, .moduleExecute m.name 0,
       .emit m.phase "module_execute_complete" .debug] ∧
    (executeModule es m).2.2 = none := by
  simp [executeModule, executeModuleGo, h]

/-- Actions an `executeModule` call can perform: event emissions tagged with
the module's own `phase` field at Debug/Warn/Error level, `execute` calls of
the module itself, and retry waits — nothing else (no setup call, no
observer call, no context transition, no Info/Critical event). -/
def moduleOnlyAct (m : LifecycleModule) : EngineAction → Prop
  | .emit ph ty lv => ph = m.phase ∧ (lv = .debug ∨ lv = .warn ∨ lv = .error) ∧
      ty ∈ ["module_execute_start", "module_execute_complete",
            "module_execute_retry", "module_execute_failed"]
  | .moduleExecute n _ => n = m.name
  | .sleep _ => True
  | _ => False

theorem executeModuleGo_acts (cfg : LifecycleConfig) (m : LifecycleModule) :
    ∀ (f r : Nat) (es : LifecycleEngine),
    ∀ a ∈ (executeModuleGo cfg m r f es).2.1, moduleOnlyAct m a := by
  intro f
  induction f with
  | zero => intro r es a ha; simp [executeModuleGo] at ha
  | succ f ih =>
      intro r es a ha
      simp only [executeModuleGo, logEvent_act] at ha
      rcases h : m.execOutcome r with _ | _ <;> rw [h] at ha
      · simp only [Bool.false_eq_true, if_false] at ha
        by_cases hr : r + 1 > cfg.maxRetries <;>
          simp only [hr, if_true, if_false, List.cons_append, List.nil_append,
            List.mem_cons, List.not_mem_nil, or_false] at ha
        · rcases ha with rfl | rfl | rfl <;> simp [moduleOnlyAct]
        · rcases ha with rfl | rfl | rfl | rfl | ha
          · simp [moduleOnlyAct]
          · simp [moduleOnlyAct]
          · simp [moduleOnlyAct]
          · simp [moduleOnlyAct]
          · exact ih (r + 1) _ a ha
      · simp only [if_true, List.mem_cons, List.not_mem_nil, or_false] at ha
        rcases ha with rfl | rfl | rfl <;> simp [moduleOnlyAct]

theorem executeModule_acts (es : LifecycleEngine) (m : LifecycleModule) :
    ∀ a ∈ (executeModule es m).2.1, moduleOnlyAct m a :=
  executeModuleGo_acts es.config m _ 0 es

theorem executeModule_countP_zero (es : LifecycleEngine) (m : LifecycleModule)
    (q : EngineAction → Bool) (hq : ∀ a, moduleOnlyAct m a → q a = false) :
    (executeModule es m).2.1.countP q = 0 := by
  rw [List.countP_eq_zero]
  intro a ha
  simp [hq a (executeModule_acts es m a ha)]

/-- The module loop leaves configuration, registry, observers, state, current
phase, statistics and recorded errors unchanged. -/
theorem runModules_pres :
    ∀ (l : List LifecycleModule) (es : LifecycleEngine),
    (runModules es l).1.config = es.config ∧
    (runModules es l).1.modules = es.modules ∧
    (runModules es l).1.observers = es.observers ∧
    (runModules es l).1.state = es.state ∧
    (runModules es l).1.currentPhase = es.currentPhase ∧
    (runModules es l).1.stats = es.stats ∧
    ctxShape (runModules es l).1.context = ctxShape es.context := by
  intro l
  induction l with
  | nil => intro es; exact ⟨rfl, rfl, rfl, rfl, rfl, rfl, rfl⟩
  | cons m rest ih =>
      intro es
      simp only [runModules]
      obtain ⟨a1, b1, c1, d1, e1, f1, g1⟩ :=
        executeModuleGo_pres es.config m (es.config.maxRetries + 1) 0 es
      rcases hr : (executeModule es m).2.2 with _ | msg
      · simp only [executeModule] at *
        obtain ⟨a2, b2, c2, d2, e2, f2, g2⟩ := ih _
        exact ⟨a2.trans a1, b2.trans b1, c2.trans c1, d2.trans d1,
          e2.trans e1, f2.trans f1, g2.trans g1⟩
      · simp only [executeModule] at *
        exact ⟨a1, b1, c1, d1, e1, f1, g1⟩

theorem runModules_acts :
    ∀ (l : List LifecycleModule) (es : LifecycleEngine),
    ∀ a ∈ (runModules es l).2.1, ∃ m ∈ l, moduleOnlyAct m a := by
  intro l
  induction l with
  | nil => intro es a ha; simp [runModules] at ha
  | cons m rest ih =>
      intro es a ha
      simp only [runModules] at ha
      rcases hr : (executeModule es m).2.2 with _ | msg <;> rw [hr] at ha
      · simp only [List.mem_append] at ha
        rcases ha with ha | ha
        · exact ⟨m, List.mem_cons_self m rest, executeModule_acts es m a ha⟩
        · obtain ⟨m', hm', hact⟩ := ih _ a ha
          exact ⟨m', List.mem_cons_of_mem m hm', hact⟩
      · exact ⟨m, List.mem_cons_self m rest, executeModule_acts es m a ha⟩

theorem runModules_countP_zero (l : List LifecycleModule) (es : LifecycleEngine)
    (q : EngineAction → Bool)
    (hq : ∀ m ∈ l, ∀ a, moduleOnlyAct m a → q a = false) :
    (runModules es l).2.1.countP q = 0 := by
  rw [List.countP_eq_zero]
  intro a ha
  obtain ⟨m, hm, hact⟩ := runModules_acts l es a ha
  simp [hq m hm a hact]

/-- When every module of the list succeeds on its first attempt, the loop
returns normally and issues exactly one `execute` call per module. -/
theorem runModules_all_succ :
    ∀ (l : List LifecycleModule) (es : LifecycleEngine),
    (∀ m ∈ l, m.execOutcome 0 = true) →
    (runModules es l).2.2 = none ∧
    (runModules es l).2.1.countP EngineAction.isExec = l.length := by
  intro l
  induction l with
  | nil => intro es _; exact ⟨rfl, rfl⟩
  | cons m rest ih =>
      intro es hall
      obtain ⟨htr, hres⟩ := executeModule_succ0 es m (hall m (List.mem_cons_self m rest))
      simp only [runModules, hres]
      obtain ⟨hres2, hcount2⟩ := ih ((executeModule es m).1)
        (fun m' hm' => hall m' (List.mem_cons_of_mem m hm'))
      refine ⟨hres2, ?_⟩
      rw [List.countP_append, htr, hcount2]
      simp [EngineAction.isExec, List.countP_cons]
      omega

/-- When the head module always fails, the loop performs its attempts only:
the remaining modules of the list are never reached, and the failure
propagates. -/
theorem runModules_head_fail (es : LifecycleEngine) (m : LifecycleModule)
    (rest : List LifecycleModule) (hf : ∀ n, m.execOutcome n = false) :
    (runModules es (m :: rest)).2.1 = alwaysFailTrace es.config m ∧
    (runModules es (m :: rest)).2.2 = some m.name ∧
    (runModules es (m :: rest)).1 = (executeModule es m).1 := by
  obtain ⟨htr, hres⟩ := executeModule_fail es m hf
  simp only [runModules, hres]
  exact ⟨htr, trivial, trivial⟩

theorem monly_no_crit (m : LifecycleModule) (a : EngineAction)
    (h : moduleOnlyAct m a) : EngineAction.isEmitLevel .critical a = false := by
  cases a <;> simp [moduleOnlyAct, EngineAction.isEmitLevel] at * <;> rcases h.2.1 with rfl | rfl | rfl <;> simp

theorem monly_no_info (m : LifecycleModule) (a : EngineAction)
    (h : moduleOnlyAct m a) : EngineAction.isEmitLevel .info a = false := by
  cases a <;> simp [moduleOnlyAct, EngineAction.isEmitLevel] at * <;> rcases h.2.1 with rfl | rfl | rfl <;> simp

theorem monly_no_ctx (m : LifecycleModule) (a : EngineAction)
    (h : moduleOnlyAct m a) : EngineAction.isCtxTrans a = false := by
  cases a <;> simp [moduleOnlyAct, EngineAction.isCtxTrans] at *

theorem monly_no_setup (m : LifecycleModule) (a : EngineAction)
    (h : moduleOnlyAct m a) : EngineAction.isSetup a = false := by
  cases a <;> simp [moduleOnlyAct, EngineAction.isSetup] at *

theorem monly_no_obsError (m : LifecycleModule) (a : EngineAction)
    (h : moduleOnlyAct m a) : EngineAction.isObsError a = false := by
  cases a <;> simp [moduleOnlyAct, EngineAction.isObsError] at *

theorem monly_no_hook (m : LifecycleModule) (a : EngineAction) (n : String)
    (h : moduleOnlyAct m a) : EngineAction.isHookNamed n a = false := by
  cases a <;> simp [moduleOnlyAct, EngineAction.isHookNamed] at *

theorem monly_no_phase_error (m : LifecycleModule) (a : EngineAction)
    (h : moduleOnlyAct m a) : EngineAction.isEmitType "phase_error" a = false := by
  cases a <;> simp [moduleOnlyAct, EngineAction.isEmitType] at *
  rcases h.2.2 with rfl | rfl | rfl | rfl <;> decide

/-- The computed phase-start hook names are not properties of a `Set`
iterator object, so the guard of `executePhase` is never satisfied. -/
theorem hook_guard_start (p : LifecyclePhase) :
    methodInObserversValues ("on" ++ getPhaseMethodName p ++ "Start") = false := by
  cases p <;> decide

/-- Likewise for the phase-complete hook names. -/
theorem hook_guard_complete (p : LifecyclePhase) :
    methodInObserversValues ("on" ++ getPhaseMethodName p ++ "Complete") = false := by
  cases p <;> decide

/-- Number of registered observers that define the `onError` callback. -/
def errObserverCount (es : LifecycleEngine) : Nat :=
  (es.observers.filter fun o => observerHasMethod o "onError").length

@[simp]
theorem logEvent_modules (es : LifecycleEngine) (p : LifecyclePhase) (t : String)
    (l : EventLevel) : (logEvent es p t l).1.modules = es.modules := rfl

@[simp]
theorem logEvent_config (es : LifecycleEngine) (p : LifecyclePhase) (t : String)
    (l : EventLevel) : (logEvent es p t l).1.config = es.config := rfl

@[simp]
theorem logEvent_observers (es : LifecycleEngine) (p : LifecyclePhase) (t : String)
    (l : EventLevel) : (logEvent es p t l).1.observers = es.observers := rfl

@[simp]
theorem logEvent_state (es : LifecycleEngine) (p : LifecyclePhase) (t : String)
    (l : EventLevel) : (logEvent es p t l).1.state = es.state := rfl

/-- The engine state at the moment `executePhase` hands control to the
module loop: current phase set, context transitioned, `phase_start`
emitted.  (Introduced to give the intermediate state of `executePhase` a
name in the lemmas; it performs no step of its own.) -/
def phaseEntryEngine (es : LifecycleEngine) (p : LifecyclePhase) : LifecycleEngine :=
  let es := { es with currentPhase := some p }
  let (es, c) := getContext es
  let c' := { c with previousPhase := some c.currentPhase, currentPhase := p }
  let es := { es with context := some c' }
  (logEvent es p "phase_start" .info).1

/-- The body of `executePhase`, written as a function of the module-loop outcome (for an
engine that already has a context).  The observer-hook guards are resolved
to `false` by `hook_guard_start`/`hook_guard_complete`. -/
theorem executePhase_run (es : LifecycleEngine) (c : LifecycleContext)
    (p : LifecyclePhase) (hctx : es.context = some c)
    (esM : LifecycleEngine) (trM : List EngineAction) (rM : Option String)
    (hrm : runModules (phaseEntryEngine es p) (es.modules p) = (esM, trM, rM)) :
    executePhase es p =
      match rM with
      | none =>
          ({ (logEvent esM p "phase_complete" .info).1 with
              stats := phaseStatsUpdate (logEvent esM p "phase_complete" .info).1.stats
                p .success },
           .ctxTransition c.currentPhase p :: .emit p "phase_start" .info ::
             (trM ++ [.emit p "phase_complete" .info]),
           none)
      | some msg =>
          ({ (handlePhaseError esM msg p).1 with
              stats := phaseStatsUpdate (handlePhaseError esM msg p).1.stats p .failure },
           .ctxTransition c.currentPhase p :: .emit p "phase_start" .info ::
             (trM ++ (handlePhaseError esM msg p).2),
           if (handlePhaseError esM msg p).1.config.continueOnError then none
           else some msg) := by
  simp only [phaseEntryEngine, getContext, hctx] at hrm
  simp only [executePhase, getContext, hctx, hook_guard_start, hook_guard_complete,
    Bool.false_eq_true, if_false, executePhaseModules, logEvent_modules, logEvent_act,
    hrm]
  rcases rM with _ | msg
  · simp
  · simp

theorem logEvent_ctxShape (es : LifecycleEngine) (p : LifecyclePhase) (t : String)
    (l : EventLevel) :
    ctxShape (logEvent es p t l).1.context = ctxShape es.context :=
  (logEvent_fields es p t l).2.2.2.2.2.2

theorem ctxShape_eq_some (o : Option LifecycleContext) (cur : LifecyclePhase)
    (prev : Option LifecyclePhase) (errs : List String)
    (h : ctxShape o = some (cur, prev, errs)) :
    ∃ c', o = some c' ∧ c'.currentPhase = cur ∧ c'.previousPhase = prev ∧
      c'.errors = errs := by
  cases o with
  | none => simp [ctxShape] at h
  | some c' =>
      refine ⟨c', rfl, ?_⟩
      simpa [ctxShape, Prod.ext_iff] using h

theorem phaseEntryEngine_fields (es : LifecycleEngine) (p : LifecyclePhase) :
    (phaseEntryEngine es p).config = es.config ∧
    (phaseEntryEngine es p).modules = es.modules ∧
    (phaseEntryEngine es p).observers = es.observers ∧
    (phaseEntryEngine es p).state = es.state ∧
    (phaseEntryEngine es p).stats = es.stats := by
  simp only [phaseEntryEngine, getContext]
  cases es.context <;> exact ⟨rfl, rfl, rfl, rfl, rfl⟩

theorem phaseEntryEngine_ctx (es : LifecycleEngine) (c : LifecycleContext)
    (p : LifecyclePhase) (hctx : es.context = some c) :
    ctxShape (phaseEntryEngine es p).context =
      some (p, some c.currentPhase, c.errors) := by
  simp [phaseEntryEngine, getContext, hctx, logEvent, ctxShape]

/-- Running `executePhase` on a phase whose modules all succeed at their first
attempt: no exception, one `execute` per module, no Critical event, the
context transition first and unique, phase markers as assigned on entry,
and engine bookkeeping fields untouched. -/
theorem executePhase_success (es : LifecycleEngine) (c : LifecycleContext)
    (p : LifecyclePhase) (hctx : es.context = some c)
    (hall : ∀ m ∈ es.modules p, m.execOutcome 0 = true) :
    (executePhase es p).2.2 = none ∧
    (executePhase es p).2.1.countP EngineAction.isExec = (es.modules p).length ∧
    (executePhase es p).2.1.countP (EngineAction.isEmitLevel .critical) = 0 ∧
    (executePhase es p).2.1.filter EngineAction.isCtxTrans =
      [.ctxTransition c.currentPhase p] ∧
    (executePhase es p).2.1.head? = some (.ctxTransition c.currentPhase p) ∧
    (executePhase es p).2.1.countP EngineAction.isSetup = 0 ∧
    (executePhase es p).1.config = es.config ∧
    (executePhase es p).1.modules = es.modules ∧
    (executePhase es p).1.observers = es.observers ∧
    (executePhase es p).1.state = es.state ∧
    (∃ c', (executePhase es p).1.context = some c' ∧
      c'.currentPhase = p ∧ c'.previousPhase = some c.currentPhase ∧
      c'.errors = c.errors) := by
  rcases hrm : runModules (phaseEntryEngine es p) (es.modules p) with ⟨esM, trM, rM⟩
  obtain ⟨hres, hcount⟩ := runModules_all_succ (es.modules p) (phaseEntryEngine es p) hall
  rw [hrm] at hres hcount
  simp only at hres hcount
  subst hres
  obtain ⟨pc, pm, po, ps, pcp, pst, pctx⟩ := runModules_pres (es.modules p) (phaseEntryEngine es p)
  rw [hrm] at pc pm po ps pcp pst pctx
  simp only at pc pm po ps pcp pst pctx
  obtain ⟨ec, em, eo, est, estats⟩ := phaseEntryEngine_fields es p
  have hacts : ∀ a ∈ trM, ∃ m ∈ es.modules p, moduleOnlyAct m a := by
    intro a ha
    have := runModules_acts (es.modules p) (phaseEntryEngine es p) a (by rw [hrm]; exact ha)
    exact this
  rw [executePhase_run es c p hctx esM trM none hrm]
  simp only [List.countP_cons, List.countP_append, List.filter_cons, List.filter_append,
    List.head?_cons]
  refine ⟨by trivial, ?_, ?_, ?_, by trivial, ?_, ?_, ?_, ?_, ?_, ?_⟩
  · rw [hcount]; simp [EngineAction.isExec]
  · rw [List.countP_eq_zero.mpr (fun a ha => by
      obtain ⟨m, _, hact⟩ := hacts a ha
      simp [monly_no_crit m a hact])]
    simp [EngineAction.isEmitLevel]
  · rw [List.filter_eq_nil.mpr (fun a ha => by
      obtain ⟨m, _, hact⟩ := hacts a ha
      simp [monly_no_ctx m a hact])]
    simp [EngineAction.isCtxTrans]
  · rw [List.countP_eq_zero.mpr (fun a ha => by
      obtain ⟨m, _, hact⟩ := hacts a ha
      simp [monly_no_setup m a hact])]
    simp [EngineAction.isSetup]
  · simpa using pc.trans ec
  · simpa using pm.trans em
  · simpa using po.trans eo
  · simpa using ps.trans est
  · have hshape : ctxShape (logEvent esM p "phase_complete" .info).1.context =
        some (p, some c.currentPhase, c.errors) := by
      rw [logEvent_ctxShape, pctx, phaseEntryEngine_ctx es c p hctx]
    obtain ⟨c', hc', h1, h2, h3⟩ := ctxShape_eq_some _ _ _ _ hshape
    exact ⟨c', by simpa using hc', h1, h2, h3⟩

theorem failSeg_exec (cfg : LifecycleConfig) (m : LifecycleModule) (i : Nat) :
    (failSeg cfg m i).filter EngineAction.isExec = [.moduleExecute m.name i] := by
  by_cases h : i < cfg.maxRetries <;> simp [failSeg, h, EngineAction.isExec]

theorem bindFailSeg_exec (cfg : LifecycleConfig) (m : LifecycleModule) :
    ∀ l : List Nat,
    (l.bind (failSeg cfg m)).filter EngineAction.isExec =
      l.map (.moduleExecute m.name ·) := by
  intro l
  induction l with
  | nil => rfl
  | cons i rest ih =>
      simp only [List.cons_bind, List.filter_append, failSeg_exec, ih, List.map_cons,
        List.singleton_append]

theorem alwaysFailTrace_exec (cfg : LifecycleConfig) (m : LifecycleModule) :
    (alwaysFailTrace cfg m).filter EngineAction.isExec =
      (List.range (cfg.maxRetries + 1)).map (.moduleExecute m.name ·) :=
  bindFailSeg_exec cfg m _

theorem notifyObserversError_counts (es : LifecycleEngine) (p : LifecyclePhase) :
    (notifyObserversError es p).countP EngineAction.isObsError = errObserverCount es ∧
    (notifyObserversError es p).countP EngineAction.isExec = 0 ∧
    (notifyObserversError es p).countP (EngineAction.isEmitLevel .critical) = 0 ∧
    (notifyObserversError es p).countP EngineAction.isSetup = 0 ∧
    (notifyObserversError es p).countP (EngineAction.isEmitType "phase_error") = 0 ∧
    (notifyObserversError es p).filter EngineAction.isCtxTrans = [] := by
  refine ⟨?_, ?_, ?_, ?_, ?_, ?_⟩ <;>
    simp [notifyObserversError, errObserverCount, List.countP_map,
      EngineAction.isObsError, EngineAction.isExec, EngineAction.isEmitLevel,
      EngineAction.isSetup, EngineAction.isEmitType, EngineAction.isCtxTrans,
      List.countP_eq_length_filter, Function.comp]

theorem handlePhaseError_char (es : LifecycleEngine) (msg : String)
    (p : LifecyclePhase) (c : LifecycleContext) (hctx : es.context = some c) :
    (handlePhaseError es msg p).2 =
      .emit p "phase_error" .error :: notifyObserversError es p ∧
    (handlePhaseError es msg p).1.config = es.config ∧
    (handlePhaseError es msg p).1.modules = es.modules ∧
    (handlePhaseError es msg p).1.observers = es.observers ∧
    (handlePhaseError es msg p).1.state = es.state ∧
    ctxShape (handlePhaseError es msg p).1.context =
      some (c.currentPhase, c.previousPhase, c.errors ++ [msg]) := by
  refine ⟨?_, rfl, rfl, rfl, rfl, ?_⟩
  · simp [handlePhaseError, notifyObserversError, hctx]
  · simp [handlePhaseError, hctx, logEvent, ctxShape]

/-- Running `executePhase` on a phase whose first registered module always fails: the
module's `maxRetries + 1` attempts are the only `execute` calls (the rest of
the phase's modules are skipped), the error is recorded in the context, a
`phase_error` event is emitted, every `onError` observer is notified, no
Critical event is emitted, and the failure is re-raised exactly when
`continueOnError` is false. -/
theorem executePhase_headfail (es : LifecycleEngine) (c : LifecycleContext)
    (p : LifecyclePhase) (mf : LifecycleModule) (rest : List LifecycleModule)
    (hctx : es.context = some c) (hmods : es.modules p = mf :: rest)
    (hf : ∀ n, mf.execOutcome n = false) :
    (executePhase es p).2.2 =
      (if es.config.continueOnError then none else some mf.name) ∧
    (executePhase es p).2.1.filter EngineAction.isExec =
      (List.range (es.config.maxRetries + 1)).map (.moduleExecute mf.name ·) ∧
    (executePhase es p).2.1.countP (EngineAction.isEmitType "phase_error") = 1 ∧
    (executePhase es p).2.1.countP EngineAction.isObsError = errObserverCount es ∧
    (executePhase es p).2.1.countP (EngineAction.isEmitLevel .critical) = 0 ∧
    (executePhase es p).2.1.countP EngineAction.isSetup = 0 ∧
    (executePhase es p).2.1.filter EngineAction.isCtxTrans =
      [.ctxTransition c.currentPhase p] ∧
    (executePhase es p).1.config = es.config ∧
    (executePhase es p).1.modules = es.modules ∧
    (executePhase es p).1.observers = es.observers ∧
    (executePhase es p).1.state = es.state ∧
    (∃ c', (executePhase es p).1.context = some c' ∧
      c'.currentPhase = p ∧ c'.previousPhase = some c.currentPhase ∧
      c'.errors = c.errors ++ [mf.name]) := by
  obtain ⟨ec, em, eo, est, estats⟩ := phaseEntryEngine_fields es p
  have hmods' : (phaseEntryEngine es p).modules p = mf :: rest := by rw [em, hmods]
  rcases hrm : runModules (phaseEntryEngine es p) (es.modules p) with ⟨esM, trM, rM⟩
  obtain ⟨htr, hres, hes⟩ := runModules_head_fail (phaseEntryEngine es p) mf rest hf
  rw [hmods] at hrm
  rw [hrm] at htr hres hes
  simp only at htr hres hes
  subst hres
  subst htr
  rw [← hmods] at hrm
  have heq := executePhase_run es c p hctx esM
    (alwaysFailTrace (phaseEntryEngine es p).config mf) (some mf.name) hrm
  obtain ⟨ga, gb, gc, gd, ge, gf, gg⟩ :=
    executeModuleGo_pres (phaseEntryEngine es p).config mf
      ((phaseEntryEngine es p).config.maxRetries + 1) 0 (phaseEntryEngine es p)
  have hesMc : esM.config = es.config := by
    rw [hes]; simp only [executeModule]; exact ga.trans ec
  have hesMm : esM.modules = es.modules := by
    rw [hes]; simp only [executeModule]; exact gb.trans em
  have hesMo : esM.observers = es.observers := by
    rw [hes]; simp only [executeModule]; exact gc.trans eo
  have hesMs : esM.state = es.state := by
    rw [hes]; simp only [executeModule]; exact gd.trans est
  have hesMctx : ctxShape esM.context = some (p, some c.currentPhase, c.errors) := by
    rw [hes]; simp only [executeModule]
    exact gg.trans (phaseEntryEngine_ctx es c p hctx)
  obtain ⟨cM, hcM, hcM1, hcM2, hcM3⟩ := ctxShape_eq_some _ _ _ _ hesMctx
  obtain ⟨h2, hHc, hHm, hHo, hHs, hHctx⟩ := handlePhaseError_char esM mf.name p cM hcM
  obtain ⟨e1, e2, e3, e4, e5, e6⟩ := notifyObserversError_counts esM p
  have hfacts : ∀ a ∈ alwaysFailTrace (phaseEntryEngine es p).config mf,
      moduleOnlyAct mf a := by
    intro a ha
    have htr2 := (executeModule_fail (phaseEntryEngine es p) mf hf).1
    rw [← htr2] at ha
    exact executeModule_acts (phaseEntryEngine es p) mf a ha
  rw [heq]
  simp only [h2, List.countP_cons, List.countP_append, List.filter_cons,
    List.filter_append]
  have zcrit : (alwaysFailTrace (phaseEntryEngine es p).config mf).countP
      (EngineAction.isEmitLevel .critical) = 0 :=
    List.countP_eq_zero.mpr (fun a ha => by simp [monly_no_crit mf a (hfacts a ha)])
  have zsetup : (alwaysFailTrace (phaseEntryEngine es p).config mf).countP
      EngineAction.isSetup = 0 :=
    List.countP_eq_zero.mpr (fun a ha => by simp [monly_no_setup mf a (hfacts a ha)])
  have zperr : (alwaysFailTrace (phaseEntryEngine es p).config mf).countP
      (EngineAction.isEmitType "phase_error") = 0 :=
    List.countP_eq_zero.mpr (fun a ha => by
      simp [monly_no_phase_error mf a (hfacts a ha)])
  have zobse : (alwaysFailTrace (phaseEntryEngine es p).config mf).countP
      EngineAction.isObsError = 0 :=
    List.countP_eq_zero.mpr (fun a ha => by simp [monly_no_obsError mf a (hfacts a ha)])
  have zctx : (alwaysFailTrace (phaseEntryEngine es p).config mf).filter
      EngineAction.isCtxTrans = [] :=
    List.filter_eq_nil.mpr (fun a ha => by simp [monly_no_ctx mf a (hfacts a ha)])
  refine ⟨?_, ?_, ?_, ?_, ?_, ?_, ?_, ?_, ?_, ?_, ?_, ?_⟩
  · rw [hHc, hesMc]
  · have zexecO : (notifyObserversError esM p).filter EngineAction.isExec = [] :=
      List.filter_eq_nil.mpr (List.countP_eq_zero.mp e2)
    simp [EngineAction.isExec, alwaysFailTrace_exec, zexecO, ec]
  · rw [zperr, e5]
    simp [EngineAction.isEmitType]
  · rw [zobse, e1]
    have : errObserverCount esM = errObserverCount es := by
      simp [errObserverCount, hesMo]
    rw [this]
    simp [EngineAction.isObsError]
  · rw [zcrit, e3]
    simp [EngineAction.isEmitLevel]
  · rw [zsetup, e4]
    simp [EngineAction.isSetup]
  · rw [zctx, e6]
    simp [EngineAction.isCtxTrans]
  · simpa using hHc.trans hesMc
  · simpa using hHm.trans hesMm
  · simpa using hHo.trans hesMo
  · simpa using hHs.trans hesMs
  · have hshape : ctxShape (handlePhaseError esM mf.name p).1.context =
        some (p, some c.currentPhase, c.errors ++ [mf.name]) := by
      rw [hHctx, hcM1, hcM2, hcM3]
    obtain ⟨c', hc', k1, k2, k3⟩ := ctxShape_eq_some _ _ _ _ hshape
    exact ⟨c', by simpa using hc', k1, k2, k3⟩

theorem phaseStatsUpdate_global (st : LifecycleStats) (p : LifecyclePhase)
    (r : ExecutionResult) :
    (phaseStatsUpdate st p r).totalExecutions = st.totalExecutions ∧
    (phaseStatsUpdate st p r).successfulExecutions = st.successfulExecutions ∧
    (phaseStatsUpdate st p r).failedExecutions = st.failedExecutions :=
  ⟨rfl, rfl, rfl⟩

/-- The action list of `handlePhaseError` does not depend on the context. -/
theorem handlePhaseError_acts (es : LifecycleEngine) (msg : String)
    (p : LifecyclePhase) :
    (handlePhaseError es msg p).2 =
      .emit p "phase_error" .error :: notifyObserversError es p := by
  simp [handlePhaseError, notifyObserversError]

theorem notifyByMethod_no_setup (es : LifecycleEngine) (n : String) :
    (notifyObserversByMethod es n).countP EngineAction.isSetup = 0 := by
  simp [notifyObserversByMethod, List.countP_map, EngineAction.isSetup, Function.comp]
  intro a _ _ _ ha
  subst ha
  rfl

/-- When the engine has no context yet, `executePhase` behaves as on the
engine whose context was just created by `getContext` (the lazy-creation
branch of lines 137-142). -/
theorem executePhase_context_none (es : LifecycleEngine) (p : LifecyclePhase)
    (h : es.context = none) :
    executePhase es p =
      executePhase
        { es with context := some (createContext { es with currentPhase := some p }) }
        p := by
  simp only [executePhase, getContext, h]

/-- No engine operation ever invokes a module's setup: `executePhase`. -/
theorem executePhase_no_setup (es : LifecycleEngine) (p : LifecyclePhase) :
    (executePhase es p).2.1.countP EngineAction.isSetup = 0 := by
  have main : ∀ (esx : LifecycleEngine) (cx : LifecycleContext),
      esx.context = some cx →
      (executePhase esx p).2.1.countP EngineAction.isSetup = 0 := by
    intro esx cx hctx
    rcases hrm : runModules (phaseEntryEngine esx p) (esx.modules p) with ⟨esM, trM, rM⟩
    have hz : trM.countP EngineAction.isSetup = 0 := by
      refine List.countP_eq_zero.mpr (fun a ha => ?_)
      obtain ⟨m, _, hact⟩ := runModules_acts (esx.modules p) (phaseEntryEngine esx p) a
        (by rw [hrm]; exact ha)
      simp [monly_no_setup m a hact]
    rw [executePhase_run esx cx p hctx esM trM rM hrm]
    rcases rM with _ | msg
    · simp only [List.countP_cons, List.countP_append, hz]
      simp [EngineAction.isSetup]
    · simp only [handlePhaseError_acts, List.countP_cons, List.countP_append, hz]
      have : (notifyObserversError esM p).countP EngineAction.isSetup = 0 :=
        (notifyObserversError_counts esM p).2.2.2.1
      simp [EngineAction.isSetup, this]
  rcases h : es.context with _ | c
  · rw [executePhase_context_none es p h]
    exact main _ _ rfl
  · exact main es c h

theorem runPhases_no_setup :
    ∀ (ps : List LifecyclePhase) (es : LifecycleEngine),
    (runPhases es ps).2.1.countP EngineAction.isSetup = 0 := by
  intro ps
  induction ps with
  | nil => intro es; simp [runPhases]
  | cons p rest ih =>
      intro es
      simp only [runPhases]
      rcases hep : executePhase es p with ⟨es1, tr, r⟩
      have htr : tr.countP EngineAction.isSetup = 0 := by
        have := executePhase_no_setup es p
        rw [hep] at this
        exact this
      rcases r with _ | msg
      · simp only [List.countP_append, htr, ih es1, Nat.add_zero]
      · exact htr

theorem notifyObserversError_no_setup (es : LifecycleEngine) (p : LifecyclePhase) :
    (notifyObserversError es p).countP EngineAction.isSetup = 0 :=
  (notifyObserversError_counts es p).2.2.2.1

theorem initEngine_no_setup (es : LifecycleEngine) :
    (initEngine es).2.1.countP EngineAction.isSetup = 0 := by
  by_cases h : es.state = .uninitialized
  · rcases hrm : executePhaseModules (initEntryEngine es) .initialization
      with ⟨esM, trM, rM⟩
    have hz : trM.countP EngineAction.isSetup = 0 := by
      have hgen := runModules_countP_zero ((initEntryEngine es).modules .initialization)
        (initEntryEngine es) EngineAction.isSetup
        (fun m _ a hact => monly_no_setup m a hact)
      rw [executePhaseModules] at hrm
      rw [hrm] at hgen
      exact hgen
    simp only [initEngine, h, ne_eq, not_true_eq_false, if_false, hrm]
    rcases rM with _ | msg
    · simp only [List.countP_append, hz, notifyByMethod_no_setup]
      simp [EngineAction.isSetup]
    · simp only [handlePhaseError_acts, List.countP_append, List.countP_cons, hz,
        notifyByMethod_no_setup, notifyObserversError_no_setup]
      simp [EngineAction.isSetup]
  · simp [initEngine, h]

theorem handleLifecycleError_acts (es : LifecycleEngine) :
    (handleLifecycleError es).2 =
      [.emit (es.currentPhase.getD .initialization) "lifecycle_error" .critical] := by
  simp [handleLifecycleError]

theorem startEngine_no_setup (es : LifecycleEngine) :
    (startEngine es).2.1.countP EngineAction.isSetup = 0 := by
  have run_part : ∀ (esx : LifecycleEngine) (trx : List EngineAction),
      trx.countP EngineAction.isSetup = 0 →
      ¬(esx.state ≠ .stopped ∧ esx.state ≠ .paused) →
      (match runPhases
          (logEvent { esx with state := .running } .initialization
            "lifecycle_start" .info).1 startPhaseOrder with
        | (esP, trP, none) =>
            ((logEvent { esP with
                stats := { esP.stats with
                  totalExecutions := esP.stats.totalExecutions + 1
                  successfulExecutions := esP.stats.successfulExecutions + 1 },
                state := .stopped } .cleanup "lifecycle_complete" .info).1,
             trx ++ [EngineAction.emit .initialization "lifecycle_start" .info] ++
               trP ++ [EngineAction.emit .cleanup "lifecycle_complete" .info],
             (none : Option EngineError))
        | (esP, trP, some msg) =>
            ((handleLifecycleError { { esP with state := .error } with
                stats := { { esP with state := .error }.stats with
                  totalExecutions := { esP with state := .error }.stats.totalExecutions + 1
                  failedExecutions := { esP with state := .error }.stats.failedExecutions + 1 } }).1,
             trx ++ [EngineAction.emit .initialization "lifecycle_start" .info] ++
               trP ++ (handleLifecycleError { { esP with state := .error } with
                stats := { { esP with state := .error }.stats with
                  totalExecutions := { esP with state := .error }.stats.totalExecutions + 1
                  failedExecutions := { esP with state := .error }.stats.failedExecutions + 1 } }).2,
             some (.moduleFailure msg))).2.1.countP EngineAction.isSetup = 0 := by
    intro esx trx hzx _
    rcases hP : runPhases
        (logEvent { esx with state := .running } .initialization
          "lifecycle_start" .info).1 startPhaseOrder with ⟨esP, trP, rP⟩
    have hzP : trP.countP EngineAction.isSetup = 0 := by
      have := runPhases_no_setup startPhaseOrder
        (logEvent { esx with state := .running } .initialization
          "lifecycle_start" .info).1
      rw [hP] at this
      exact this
    rcases rP with _ | msg <;>
      simp [List.countP_append, hzx, hzP, handleLifecycleError_acts,
        EngineAction.isSetup]
  by_cases h : es.state = .uninitialized
  · rcases hI : initEngine es with ⟨esI, trI, rI⟩
    have hzI : trI.countP EngineAction.isSetup = 0 := by
      have := initEngine_no_setup es
      rw [hI] at this
      exact this
    simp only [startEngine]
    rw [if_pos h, hI]
    rcases rI with _ | e
    · dsimp only
      by_cases hg : esI.state ≠ .stopped ∧ esI.state ≠ .paused
      · rw [if_pos hg]
        exact hzI
      · rw [if_neg hg]
        exact run_part esI trI hzI hg
    · exact hzI
  · simp only [startEngine]
    rw [if_neg h]
    dsimp only
    by_cases hg : es.state ≠ .stopped ∧ es.state ≠ .paused
    · rw [if_pos hg]
      rfl
    · rw [if_neg hg]
      exact run_part es [] rfl hg

/-! ### Claim theorems -/

/-- A sample module used by concrete counterexamples/witnesses: registered
flag down, `execute` succeeds immediately. -/
def demoModule : LifecycleModule :=
  { name := "env-detector", version := "1.0.0", phase := .preparation,
    isInitialized := false, execOutcome := fun _ => true }

/-- C1 counterexample engine: a fresh engine with one module registered to
the Preparation phase. -/
def c1Engine : LifecycleEngine :=
  (registerModule (mkEngine defaultConfig) .preparation demoModule).1

/-- The full action trace of the engine lifetime `initialize(); start()` on
`c1Engine`. -/
def c1Trace : List EngineAction :=
  (initEngine c1Engine).2.1 ++ (startEngine (initEngine c1Engine).1).2.1

/-- C1, counterexample: the claim says the engine invokes the module's setup
(`initialize`) exactly once before its run.  On a fresh engine with one
Preparation module whose `initialized` flag is down, the full
`initialize(); start()` lifetime invokes the module's run once and its setup
zero times — not once — because `executeModule` (lines 565-629) contains no
call to `module.initialize`. -/
theorem C1_counterexample :
    c1Trace.countP EngineAction.isSetup = 0 ∧
    c1Trace.countP (EngineAction.isExecOf "env-detector") = 1 ∧
    ¬ c1Trace.countP EngineAction.isSetup = 1 := by
  decide

/-- C1, amended: the engine never invokes any module's setup operation —
neither `initialize()` nor `start()` (nor any phase they drive) performs a
setup call; a registered module's `run` (`execute`) is invoked directly, and
the module's `initialized` flag is neither read nor written by the engine. -/
theorem C1_engine_never_invokes_setup (es : LifecycleEngine) :
    (initEngine es).2.1.countP EngineAction.isSetup = 0 ∧
    (startEngine es).2.1.countP EngineAction.isSetup = 0 :=
  ⟨initEngine_no_setup es, startEngine_no_setup es⟩

/-- C7: `initialize()` on an engine that is not `Uninitialized` fails with
the invalid-state error and leaves the engine (state included) unchanged;
`start()` on an engine that is neither `Stopped` nor `Paused` (and not in
the implicit-initialize case `Uninitialized`) fails with the invalid-state
error and leaves the engine unchanged. -/
theorem C7_invalid_state_guards :
    (∀ es : LifecycleEngine, es.state ≠ .uninitialized →
      initEngine es = (es, [], some (.invalidState alreadyInitializedMsg))) ∧
    (∀ es : LifecycleEngine, es.state ≠ .uninitialized →
      es.state ≠ .stopped → es.state ≠ .paused →
      startEngine es = (es, [], some (.invalidState cannotStartMsg))) := by
  constructor
  · intro es h
    simp [initEngine, h]
  · intro es h1 h2 h3
    simp only [startEngine]
    rw [if_neg h1]
    dsimp only
    rw [if_pos ⟨h2, h3⟩]

/-- An engine frozen in the `Running` state, used to witness C7. -/
def c7Engine : LifecycleEngine :=
  { mkEngine defaultConfig with state := .running }

/-- C7, witness: both guards fire on a concrete `Running` engine. -/
theorem C7_witness :
    initEngine c7Engine = (c7Engine, [], some (.invalidState alreadyInitializedMsg)) ∧
    startEngine c7Engine = (c7Engine, [], some (.invalidState cannotStartMsg)) :=
  ⟨C7_invalid_state_guards.1 c7Engine (by decide),
   C7_invalid_state_guards.2 c7Engine (by decide) (by decide) (by decide)⟩

/-! ### Event-history machinery (C6) -/

/-- The fields of one event emission (phase, type tag, level), as supplied by
a call site of `logEvent`. -/
structure EmitRecord where
  phase : LifecyclePhase
  ty : String
  level : EventLevel

/-- A sequence of `logEvent` calls. -/
def emitSeq : LifecycleEngine → List EmitRecord → LifecycleEngine
  | es, [] => es
  | es, f :: rest => emitSeq (logEvent es f.phase f.ty f.level).1 rest

/-- The events such a sequence constructs, with their identifiers continuing
from the given counter value. -/
def eventsFrom (counter : Nat) : List EmitRecord → List LifecycleEvent
  | [] => []
  | f :: rest =>
      { id := counter + 1, phase := f.phase, type := f.ty, level := f.level } ::
        eventsFrom (counter + 1) rest

/-- The last `n` entries of a list. -/
def lastN (l : List LifecycleEvent) (n : Nat) : List LifecycleEvent :=
  l.drop (l.length - n)

theorem eventsFrom_length (counter : Nat) :
    ∀ L : List EmitRecord, (eventsFrom counter L).length = L.length := by
  intro L
  induction L generalizing counter with
  | nil => rfl
  | cons f rest ih => simp [eventsFrom, ih]

theorem emitSeq_counter :
    ∀ (L : List EmitRecord) (es : LifecycleEngine),
    (emitSeq es L).eventCounter = es.eventCounter + L.length := by
  intro L
  induction L with
  | nil => intro es; simp [emitSeq]
  | cons f rest ih =>
      intro es
      simp only [emitSeq, ih, logEvent]
      simp
      omega

theorem emitSeq_config :
    ∀ (L : List EmitRecord) (es : LifecycleEngine),
    (emitSeq es L).config = es.config := by
  intro L
  induction L with
  | nil => intro es; rfl
  | cons f rest ih => intro es; simp only [emitSeq, ih, logEvent_config]

theorem lastN_tail (l : List LifecycleEvent) (n : Nat) (h : n + 1 ≤ l.length) :
    lastN l.tail n = lastN l n := by
  unfold lastN
  rw [← List.drop_one, List.drop_drop, List.length_drop]
  congr 1
  omega

/-- The history invariant behind the C6 bound: with `saveHistory` on and a
history not exceeding the bound, a sequence of emissions leaves exactly the
last `maxHistorySize` entries of "old history followed by all newly emitted
events". -/
theorem emitSeq_history :
    ∀ (L : List EmitRecord) (es : LifecycleEngine),
    es.config.saveHistory = true →
    es.eventHistory.length ≤ es.config.maxHistorySize →
    (emitSeq es L).eventHistory =
      lastN (es.eventHistory ++ eventsFrom es.eventCounter L)
        es.config.maxHistorySize := by
  intro L
  induction L with
  | nil =>
      intro es _ hlen
      simp only [emitSeq, eventsFrom, List.append_nil, lastN]
      rw [Nat.sub_eq_zero_of_le hlen, List.drop_zero]
  | cons f rest ih =>
      intro es hsave hlen
      set ev : LifecycleEvent :=
        { id := es.eventCounter + 1, phase := f.phase, type := f.ty,
          level := f.level } with hev
      have hstep : (logEvent es f.phase f.ty f.level).1.eventHistory =
          (if (es.eventHistory ++ [ev]).length > es.config.maxHistorySize then
            (es.eventHistory ++ [ev]).tail
          else
            es.eventHistory ++ [ev]) := by
        simp [logEvent, hsave, hev]
      have hlen' : (logEvent es f.phase f.ty f.level).1.eventHistory.length ≤
          es.config.maxHistorySize := by
        rw [hstep]
        by_cases hc : (es.eventHistory ++ [ev]).length > es.config.maxHistorySize
        · rw [if_pos hc]
          simp only [List.length_tail, List.length_append, List.length_singleton]
          omega
        · rw [if_neg hc]
          omega
      have hrec := ih (logEvent es f.phase f.ty f.level).1
        (by rw [logEvent_config]; exact hsave)
        (by rw [logEvent_config]; exact hlen')
      simp only [emitSeq, hrec, logEvent_config]
      have hcounter : (logEvent es f.phase f.ty f.level).1.eventCounter =
          es.eventCounter + 1 := rfl
      rw [hcounter, hstep]
      simp only [eventsFrom, ← hev]
      by_cases hc : (es.eventHistory ++ [ev]).length > es.config.maxHistorySize
      · rw [if_pos hc]
        have hne : es.eventHistory ++ [ev] ≠ [] := by simp
        have htail : (es.eventHistory ++ [ev]).tail ++
            eventsFrom (es.eventCounter + 1) rest =
            ((es.eventHistory ++ [ev]) ++ eventsFrom (es.eventCounter + 1) rest).tail := by
          rcases hcase : es.eventHistory ++ [ev] with _ | ⟨x, xs⟩
          · exact absurd hcase hne
          · simp
        rw [htail]
        rw [lastN_tail _ _ (by
          simp only [List.length_append, List.length_singleton] at hc ⊢
          omega)]
        rw [List.append_assoc, List.singleton_append]
      · rw [if_neg hc]
        rw [List.append_assoc, List.singleton_append]

/-- C6: with `saveHistory` enabled and starting from an empty history,
emitting `maxHistorySize + k` events (`k ≥ 1`) leaves exactly
`maxHistorySize` events in the history, namely the most recently emitted
ones in emission order (the first `k` emitted events have been evicted
one-by-one, oldest first). -/
theorem C6_history_bound (es : LifecycleEngine) (L : List EmitRecord) (k : Nat)
    (hsave : es.config.saveHistory = true)
    (hempty : es.eventHistory = [])
    (hlen : L.length = es.config.maxHistorySize + k)
    (hk : 1 ≤ k) :
    (emitSeq es L).eventHistory = (eventsFrom es.eventCounter L).drop k ∧
    (emitSeq es L).eventHistory.length = es.config.maxHistorySize := by
  have h := emitSeq_history L es hsave (by rw [hempty]; simp)
  rw [hempty] at h
  simp only [List.nil_append] at h
  have hlen2 : (eventsFrom es.eventCounter L).length = L.length :=
    eventsFrom_length _ _
  constructor
  · rw [h]
    unfold lastN
    congr 1
    omega
  · rw [h]
    unfold lastN
    rw [List.length_drop]
    omega

/-- A bare engine with history bound 2 and an empty history. -/
def c6Engine : LifecycleEngine :=
  { state := .uninitialized, currentPhase := none, modules := fun _ => [],
    observers := [], eventHistory := [], stats := emptyStats,
    config := { defaultConfig with maxHistorySize := 2 }, context := none,
    eventCounter := 0 }

/-- Three emissions against a bound of 2. -/
def c6Emits : List EmitRecord :=
  [⟨.initialization, "a", .info⟩, ⟨.preparation, "b", .warn⟩,
   ⟨.execution, "c", .error⟩]

/-- C6, witness: 2 + 1 emissions leave exactly the last 2 events. -/
theorem C6_history_bound_witness :
    (emitSeq c6Engine c6Emits).eventHistory = (eventsFrom 0 c6Emits).drop 1 ∧
    (emitSeq c6Engine c6Emits).eventHistory.length = 2 :=
  C6_history_bound c6Engine c6Emits 1 rfl rfl rfl (by decide)

/-! ### Context phase-marker machinery (C9) -/

/-- The context transitions recorded when the given phases are entered in
order, starting from the given current phase. -/
def ctxTransChain : LifecyclePhase → List LifecyclePhase → List EngineAction
  | _, [] => []
  | prev, p :: rest => .ctxTransition prev p :: ctxTransChain p rest

/-- The phase-marker behavior of a single `executePhase`, for any module
outcomes: the context transition is recorded exactly once, as the very
first action (before any module runs), and afterwards the context's
`currentPhase` is the entered phase while `previousPhase` is the phase that
was current immediately before. -/
theorem executePhase_markers (es : LifecycleEngine) (c : LifecycleContext)
    (p : LifecyclePhase) (hctx : es.context = some c) :
    (executePhase es p).2.1.filter EngineAction.isCtxTrans =
      [.ctxTransition c.currentPhase p] ∧
    (executePhase es p).2.1.head? = some (.ctxTransition c.currentPhase p) ∧
    ∃ c', (executePhase es p).1.context = some c' ∧
      c'.currentPhase = p ∧ c'.previousPhase = some c.currentPhase := by
  rcases hrm : runModules (phaseEntryEngine es p) (es.modules p) with ⟨esM, trM, rM⟩
  have hfz : trM.filter EngineAction.isCtxTrans = [] := by
    refine List.filter_eq_nil.mpr (fun a ha => ?_)
    obtain ⟨m, _, hact⟩ := runModules_acts (es.modules p) (phaseEntryEngine es p) a
      (by rw [hrm]; exact ha)
    simp [monly_no_ctx m a hact]
  have hMshape : ctxShape esM.context = some (p, some c.currentPhase, c.errors) := by
    have hpres := (runModules_pres (es.modules p) (phaseEntryEngine es p)).2.2.2.2.2.2
    rw [hrm] at hpres
    simp only at hpres
    exact hpres.trans (phaseEntryEngine_ctx es c p hctx)
  rw [executePhase_run es c p hctx esM trM rM hrm]
  rcases rM with _ | msg
  · refine ⟨?_, rfl, ?_⟩
    · simp only [List.filter_cons, List.filter_append, hfz]
      simp [EngineAction.isCtxTrans]
    · have hshape : ctxShape (logEvent esM p "phase_complete" .info).1.context =
          some (p, some c.currentPhase, c.errors) := by
        rw [logEvent_ctxShape]; exact hMshape
      obtain ⟨c', hc', k1, k2, _⟩ := ctxShape_eq_some _ _ _ _ hshape
      exact ⟨c', by simpa using hc', k1, k2⟩
  · obtain ⟨cM, hcM, k1, k2, k3⟩ := ctxShape_eq_some _ _ _ _ hMshape
    obtain ⟨h2acts, _, _, _, _, hHctx⟩ := handlePhaseError_char esM msg p cM hcM
    refine ⟨?_, rfl, ?_⟩
    · have hoz : (notifyObserversError esM p).filter EngineAction.isCtxTrans = [] :=
        (notifyObserversError_counts esM p).2.2.2.2.2
      simp only [h2acts, List.filter_cons, List.filter_append, hfz, hoz]
      simp [EngineAction.isCtxTrans]
    · have hshape : ctxShape (handlePhaseError esM msg p).1.context =
          some (p, some c.currentPhase, c.errors ++ [msg]) := by
        rw [hHctx, k1, k2, k3]
      obtain ⟨c', hc', j1, j2, _⟩ := ctxShape_eq_some _ _ _ _ hshape
      exact ⟨c', by simpa using hc', j1, j2⟩

/-- Under all-succeeding modules, the phase loop enters every phase and the
recorded context transitions chain through the phase list. -/
theorem runPhases_transChain :
    ∀ (ps : List LifecyclePhase) (es : LifecycleEngine) (c : LifecycleContext),
    es.context = some c →
    (∀ q, ∀ m ∈ es.modules q, m.execOutcome 0 = true) →
    (runPhases es ps).2.2 = none ∧
    (runPhases es ps).2.1.filter EngineAction.isCtxTrans =
      ctxTransChain c.currentPhase ps := by
  intro ps
  induction ps with
  | nil =>
      intro es c hctx hall
      exact ⟨rfl, rfl⟩
  | cons p rest ih =>
      intro es c hctx hall
      obtain ⟨hres, _, _, hfilter, _, _, _, hmods, _, _, c', hc', h1, h2, _⟩ :=
        executePhase_success es c p hctx (hall p)
      simp only [runPhases]
      rcases hep : executePhase es p with ⟨es1, tr, r⟩
      rw [hep] at hres hfilter hmods hc'
      simp only at hres hfilter hmods hc'
      subst hres
      have hall1 : ∀ q, ∀ m ∈ es1.modules q, m.execOutcome 0 = true := by
        intro q m hm
        rw [hmods] at hm
        exact hall q m hm
      obtain ⟨hres2, hchain2⟩ := ih es1 c' hc' hall1
      refine ⟨hres2, ?_⟩
      simp only [List.filter_append, hfilter, hchain2, h1, ctxTransChain]
      simp

/-- C9: (1) for any phase entry with an existing context, the context's
phase transition (`previousPhase := currentPhase; currentPhase := phase`) is
recorded exactly once, as the first action of the phase — in particular
before any module of the phase runs — and afterwards `currentPhase` is the
entered phase while `previousPhase` equals the phase current immediately
before; (2) across a full successful `start()` from `Stopped`, the
transitions chain through the five phases in order, each `previousPhase`
being the previous entry's phase. -/
theorem C9_phase_markers :
    (∀ (es : LifecycleEngine) (c : LifecycleContext) (p : LifecyclePhase),
      es.context = some c →
      (executePhase es p).2.1.filter EngineAction.isCtxTrans =
        [.ctxTransition c.currentPhase p] ∧
      (executePhase es p).2.1.head? = some (.ctxTransition c.currentPhase p) ∧
      ∃ c', (executePhase es p).1.context = some c' ∧
        c'.currentPhase = p ∧ c'.previousPhase = some c.currentPhase) ∧
    (∀ (es : LifecycleEngine) (c : LifecycleContext),
      es.context = some c → es.state = .stopped →
      (∀ q, ∀ m ∈ es.modules q, m.execOutcome 0 = true) →
      (startEngine es).2.1.filter EngineAction.isCtxTrans =
        [.ctxTransition c.currentPhase .preparation,
         .ctxTransition .preparation .validation,
         .ctxTransition .validation .execution,
         .ctxTransition .execution .monitoring,
         .ctxTransition .monitoring .cleanup]) := by
  refine ⟨fun es c p hctx => executePhase_markers es c p hctx, ?_⟩
  intro es c hctx hstate hall
  simp only [startEngine]
  rw [if_neg (by rw [hstate]; decide)]
  dsimp only
  rw [if_neg (by rw [hstate]; simp)]
  set esR := (logEvent { es with state := .running } .initialization
    "lifecycle_start" .info).1 with hesR
  have hshapeR : ctxShape esR.context =
      some (c.currentPhase, c.previousPhase, c.errors) := by
    rw [hesR, logEvent_ctxShape]
    show ctxShape es.context = _
    rw [hctx]
    rfl
  obtain ⟨c2, hc2, hc2cur, _, _⟩ := ctxShape_eq_some _ _ _ _ hshapeR
  have hallR : ∀ q, ∀ m ∈ esR.modules q, m.execOutcome 0 = true := by
    intro q m hm
    rw [hesR, logEvent_modules] at hm
    exact hall q m hm
  obtain ⟨hres, hchain⟩ := runPhases_transChain startPhaseOrder esR c2 hc2 hallR
  rcases hP : runPhases esR startPhaseOrder with ⟨esP, trP, rP⟩
  rw [hP] at hres hchain
  simp only at hres hchain
  subst hres
  dsimp only
  simp only [List.nil_append, List.filter_append, List.filter_cons, hchain, hc2cur]
  simp [EngineAction.isCtxTrans, ctxTransChain, startPhaseOrder]

/-- A freshly created context (as `createContext` yields on a phase-less engine), shared by the concrete witness engines. -/
def initialCtx : LifecycleContext :=
  { currentPhase := .initialization
    previousPhase := none
    events := []
    errors := [] }

/-- A concrete `Stopped` engine with a context and one always-succeeding
module per phase, used to witness C9. -/
def c9Engine : LifecycleEngine :=
  { state := .stopped
    currentPhase := none
    modules := fun _ => [demoModule]
    observers := []
    eventHistory := []
    stats := emptyStats
    config := defaultConfig
    context := some initialCtx
    eventCounter := 0 }

/-- C9, witness: both parts at the concrete engine. -/
theorem C9_phase_markers_witness :
    ((executePhase c9Engine .preparation).2.1.filter EngineAction.isCtxTrans =
      [.ctxTransition .initialization .preparation] ∧
     (executePhase c9Engine .preparation).2.1.head? =
      some (.ctxTransition .initialization .preparation) ∧
     ∃ c', (executePhase c9Engine .preparation).1.context = some c' ∧
       c'.currentPhase = .preparation ∧
       c'.previousPhase = some .initialization) ∧
    (startEngine c9Engine).2.1.filter EngineAction.isCtxTrans =
      [.ctxTransition .initialization .preparation,
       .ctxTransition .preparation .validation,
       .ctxTransition .validation .execution,
       .ctxTransition .execution .monitoring,
       .ctxTransition .monitoring .cleanup] :=
  ⟨C9_phase_markers.1 c9Engine initialCtx .preparation rfl,
   C9_phase_markers.2 c9Engine initialCtx rfl rfl
      (fun q m hm => by
        simp only [c9Engine, List.mem_singleton] at hm
        subst hm
        rfl)⟩

/-! ### Retry-budget machinery (C4) -/

theorem bindFailSeg_countP (cfg : LifecycleConfig) (m : LifecycleModule)
    (q : EngineAction → Bool) (f : Nat → Nat)
    (hseg : ∀ i, (failSeg cfg m i).countP q = f i) :
    ∀ l : List Nat, (l.bind (failSeg cfg m)).countP q = (l.map f).sum := by
  intro l
  induction l with
  | nil => rfl
  | cons i rest ih =>
      simp only [List.cons_bind, List.countP_append, hseg, ih, List.map_cons,
        List.sum_cons]

theorem sum_indicator_lt (n : Nat) :
    ((List.range (n + 1)).map (fun i => if i < n then 1 else 0)).sum = n := by
  rw [List.range_succ, List.map_append, List.sum_append]
  have h1 : (List.range n).map (fun i => if i < n then 1 else 0) =
      (List.range n).map (fun _ => 1) := by
    apply List.map_congr_left
    intro i hi
    rw [if_pos (List.mem_range.mp hi)]
  rw [h1]
  simp

theorem sum_indicator_ge (n : Nat) :
    ((List.range (n + 1)).map (fun i => if i < n then 0 else 1)).sum = 1 := by
  rw [List.range_succ, List.map_append, List.sum_append]
  have h1 : (List.range n).map (fun i => if i < n then 0 else 1) =
      (List.range n).map (fun _ => 0) := by
    apply List.map_congr_left
    intro i hi
    rw [if_pos (List.mem_range.mp hi)]
  rw [h1]
  simp

theorem failSeg_count_retry (cfg : LifecycleConfig) (m : LifecycleModule) (i : Nat) :
    (failSeg cfg m i).countP (EngineAction.isEmitType "module_execute_retry") =
      if i < cfg.maxRetries then 1 else 0 := by
  by_cases h : i < cfg.maxRetries <;>
    simp [failSeg, h, EngineAction.isEmitType]

theorem failSeg_count_sleep (cfg : LifecycleConfig) (m : LifecycleModule) (i : Nat) :
    (failSeg cfg m i).countP (EngineAction.isSleepOf cfg.retryDelay) =
      if i < cfg.maxRetries then 1 else 0 := by
  by_cases h : i < cfg.maxRetries <;>
    simp [failSeg, h, EngineAction.isSleepOf, EngineAction.isEmitType]

theorem failSeg_count_failed (cfg : LifecycleConfig) (m : LifecycleModule) (i : Nat) :
    (failSeg cfg m i).countP (EngineAction.isEmitType "module_execute_failed") =
      if i < cfg.maxRetries then 0 else 1 := by
  by_cases h : i < cfg.maxRetries <;>
    simp [failSeg, h, EngineAction.isEmitType]

/-- Counting the attempts of the retry loop when the module succeeds at the
(zero-based) attempt `t` after `t` failures: `t + 1` attempts, no
error-level failure event, normal return. -/
theorem executeModuleGo_succ_counts (cfg : LifecycleConfig) (m : LifecycleModule) :
    ∀ (f t r : Nat) (es : LifecycleEngine),
    t < f → r + f = cfg.maxRetries + 1 →
    (∀ j, j < t → m.execOutcome (r + j) = false) →
    m.execOutcome (r + t) = true →
    (executeModuleGo cfg m r f es).2.1.countP EngineAction.isExec = t + 1 ∧
    (executeModuleGo cfg m r f es).2.1.countP
      (EngineAction.isEmitType "module_execute_failed") = 0 ∧
    (executeModuleGo cfg m r f es).2.2 = none := by
  intro f
  induction f with
  | zero => intro t r es ht _ _ _; exact absurd ht (by omega)
  | succ f ih =>
      intro t r es ht hsum hbefore hsucc
      rcases t with _ | t'
      · have hr : m.execOutcome r = true := by simpa using hsucc
        simp [executeModuleGo, hr, EngineAction.isExec, EngineAction.isEmitType]
      · have hr : m.execOutcome r = false := by
          have := hbefore 0 (by omega)
          simpa using this
        have hle : ¬ r + 1 > cfg.maxRetries := by omega
        simp only [executeModuleGo, hr, Bool.false_eq_true, if_false, hle,
          logEvent_act]
        obtain ⟨ha, hb, hc⟩ := ih t' (r + 1) _ (by omega) (by omega)
          (fun j hj => by
            have := hbefore (j + 1) (by omega)
            simpa [Nat.add_assoc, Nat.add_comm 1 j] using this)
          (by
            have : r + 1 + t' = r + (t' + 1) := by omega
            rw [this]
            exact hsucc)
        refine ⟨?_, ?_, hc⟩
        · simp only [List.cons_append, List.nil_append, List.countP_cons,
            List.countP_append, ha]
          simp [EngineAction.isExec]
        · simp only [List.cons_append, List.nil_append, List.countP_cons,
            List.countP_append, hb]
          simp [EngineAction.isEmitType]

/-- C4: a module whose run fails on every attempt is attempted exactly
`maxRetries + 1` times — the trace is exactly `alwaysFailTrace`: each failed
non-final attempt is followed by the Warn-level retry event and the
`retryDelay` wait, the final attempt by the Error-level failure event — and
the failure is re-raised; a module whose attempt `k ≤ maxRetries` succeeds
after `k` failures is attempted exactly `k + 1` times, emits no error-level
failure event, and returns normally (no further attempts). -/
theorem C4_retry_budget :
    (∀ (es : LifecycleEngine) (m : LifecycleModule),
      (∀ n, m.execOutcome n = false) →
      (executeModule es m).2.1 = alwaysFailTrace es.config m ∧
      (executeModule es m).2.1.countP EngineAction.isExec =
        es.config.maxRetries + 1 ∧
      (executeModule es m).2.1.countP
        (EngineAction.isEmitType "module_execute_retry") = es.config.maxRetries ∧
      (executeModule es m).2.1.countP
        (EngineAction.isSleepOf es.config.retryDelay) = es.config.maxRetries ∧
      (executeModule es m).2.1.countP
        (EngineAction.isEmitType "module_execute_failed") = 1 ∧
      (executeModule es m).2.2 = some m.name) ∧
    (∀ (es : LifecycleEngine) (m : LifecycleModule) (k : Nat),
      k ≤ es.config.maxRetries →
      (∀ j, j < k → m.execOutcome j = false) →
      m.execOutcome k = true →
      (executeModule es m).2.1.countP EngineAction.isExec = k + 1 ∧
      (executeModule es m).2.1.countP
        (EngineAction.isEmitType "module_execute_failed") = 0 ∧
      (executeModule es m).2.2 = none) := by
  constructor
  · intro es m hf
    obtain ⟨htr, hres⟩ := executeModule_fail es m hf
    refine ⟨htr, ?_, ?_, ?_, ?_, hres⟩
    · rw [htr, List.countP_eq_length_filter, alwaysFailTrace_exec,
        List.length_map, List.length_range]
    · rw [htr, alwaysFailTrace,
        bindFailSeg_countP es.config m _ _ (failSeg_count_retry es.config m),
        sum_indicator_lt]
    · rw [htr, alwaysFailTrace,
        bindFailSeg_countP es.config m _ _ (failSeg_count_sleep es.config m),
        sum_indicator_lt]
    · rw [htr, alwaysFailTrace,
        bindFailSeg_countP es.config m _ _ (failSeg_count_failed es.config m),
        sum_indicator_ge]
  · intro es m k hk hbefore hsucc
    exact executeModuleGo_succ_counts es.config m (es.config.maxRetries + 1) k 0 es
      (by omega) (by omega) (fun j hj => by simpa using hbefore j hj)
      (by simpa using hsucc)

/-- A module that always fails and one that fails twice then succeeds. -/
def alwaysFailModule : LifecycleModule :=
  { name := "flaky-db", version := "1.0.0", phase := .execution,
    isInitialized := false, execOutcome := fun _ => false }

/-- A module that fails on attempts 0 and 1 and succeeds on attempt 2. -/
def failTwiceModule : LifecycleModule :=
  { name := "warm-cache", version := "1.0.0", phase := .execution,
    isInitialized := false, execOutcome := fun n => decide (2 ≤ n) }

/-- C4, witness: both halves at concrete modules (the default budget
`maxRetries = 3`). -/
theorem C4_retry_budget_witness :
    ((executeModule c9Engine alwaysFailModule).2.1.countP EngineAction.isExec = 4 ∧
     (executeModule c9Engine alwaysFailModule).2.2 = some "flaky-db") ∧
    ((executeModule c9Engine failTwiceModule).2.1.countP EngineAction.isExec = 3 ∧
     (executeModule c9Engine failTwiceModule).2.2 = none) := by
  have h1 := C4_retry_budget.1 c9Engine alwaysFailModule (fun n => rfl)
  have h2 := C4_retry_budget.2 c9Engine failTwiceModule 2 (by decide)
    (fun j hj => by
      interval_cases j <;> rfl)
    rfl
  exact ⟨⟨h1.2.1, h1.2.2.2.2.2⟩, ⟨h2.1, h2.2.2⟩⟩

/-! ### Continue-on-error behavior (C3) -/

/-- Configuration with `continueOnError` on and no retries. -/
def c3Cfg : LifecycleConfig :=
  { defaultConfig with continueOnError := true, maxRetries := 0 }

/-- A Validation-phase module that always fails. -/
def c3FailModule : LifecycleModule :=
  { name := "validator-x", version := "1.0.0", phase := .validation,
    isInitialized := false, execOutcome := fun _ => false }

/-- A second Validation-phase module, registered after the failing one. -/
def c3SecondModule : LifecycleModule :=
  { name := "validator-y", version := "1.0.0", phase := .validation,
    isInitialized := false, execOutcome := fun _ => true }

/-- An Execution-phase module. -/
def c3ExecModule : LifecycleModule :=
  { name := "executor-z", version := "1.0.0", phase := .execution,
    isInitialized := false, execOutcome := fun _ => true }

/-- A `Stopped` engine with `continueOnError`, Validation modules
`[validator-x (always fails), validator-y]`, one Execution module, and one
observer defining `onError`. -/
def c3Engine : LifecycleEngine :=
  { state := .stopped
    currentPhase := none
    modules := fun p =>
      if p = .validation then [c3FailModule, c3SecondModule]
      else if p = .execution then [c3ExecModule]
      else []
    observers := [⟨["onError"]⟩]
    eventHistory := []
    stats := emptyStats
    config := c3Cfg
    context := some initialCtx
    eventCounter := 0 }

/-- C3, counterexample: with `continueOnError = true`, after `validator-x`
exhausts its retry budget the claim says `validator-y` (a later module of
the same Validation phase) still runs.  It does not: the `catch` sits
outside the module loop of `executePhaseModules`, so the remaining
Validation modules are skipped; the error is recorded and notified and the
engine instead continues with the next phase (the Execution module runs and
`start()` returns normally). -/
theorem C3_counterexample :
    ¬ (0 < (startEngine c3Engine).2.1.countP (EngineAction.isExecOf "validator-y")) ∧
    (startEngine c3Engine).2.1.countP (EngineAction.isExecOf "executor-z") = 1 ∧
    (startEngine c3Engine).2.1.countP (EngineAction.isEmitType "phase_error") = 1 ∧
    (startEngine c3Engine).2.1.countP EngineAction.isObsError = 1 ∧
    (startEngine c3Engine).1.context.map (fun c => c.errors) =
      some ["validator-x"] ∧
    (startEngine c3Engine).2.2 = none := by
  decide

/-- C3, amended: when `continueOnError` is true and the first module of a
phase fails after exhausting the retry budget, the failure is recorded into
the Context's error list, a `phase_error` event is emitted, every `onError`
observer hook is notified, and the phase does not re-raise (so the engine
continues with the next phase); however the remaining modules of the same
phase are skipped — the only `execute` calls of the phase are the failing
module's `maxRetries + 1` attempts. -/
theorem C3_continue_on_error (es : LifecycleEngine) (c : LifecycleContext)
    (p : LifecyclePhase) (mf : LifecycleModule) (rest : List LifecycleModule)
    (hco : es.config.continueOnError = true)
    (hctx : es.context = some c) (hmods : es.modules p = mf :: rest)
    (hf : ∀ n, mf.execOutcome n = false) :
    (executePhase es p).2.2 = none ∧
    (∃ c', (executePhase es p).1.context = some c' ∧
      c'.errors = c.errors ++ [mf.name]) ∧
    (executePhase es p).2.1.countP (EngineAction.isEmitType "phase_error") = 1 ∧
    (executePhase es p).2.1.countP EngineAction.isObsError = errObserverCount es ∧
    (executePhase es p).2.1.filter EngineAction.isExec =
      (List.range (es.config.maxRetries + 1)).map (.moduleExecute mf.name ·) := by
  obtain ⟨r1, r2, r3, r4, _, _, _, _, _, _, _, c', hc', _, _, herr⟩ :=
    executePhase_headfail es c p mf rest hctx hmods hf
  refine ⟨?_, ⟨c', hc', herr⟩, r3, r4, r2⟩
  rw [r1, hco, if_pos rfl]

/-- C3, witness for the amended theorem: the Validation phase of the
counterexample engine. -/
theorem C3_continue_on_error_witness :
    (executePhase c3Engine .validation).2.2 = none ∧
    (∃ c', (executePhase c3Engine .validation).1.context = some c' ∧
      c'.errors = initialCtx.errors ++ ["validator-x"]) ∧
    (executePhase c3Engine .validation).2.1.countP
      (EngineAction.isEmitType "phase_error") = 1 ∧
    (executePhase c3Engine .validation).2.1.countP EngineAction.isObsError =
      errObserverCount c3Engine ∧
    (executePhase c3Engine .validation).2.1.filter EngineAction.isExec =
      (List.range (c3Engine.config.maxRetries + 1)).map
        (.moduleExecute "validator-x" ·) :=
  C3_continue_on_error c3Engine initialCtx .validation c3FailModule
    [c3SecondModule] rfl rfl rfl (fun _ => rfl)

/-! ### Abort-on-failure behavior (C5) -/

@[simp]
theorem logEvent_stats (es : LifecycleEngine) (p : LifecyclePhase) (t : String)
    (l : EventLevel) : (logEvent es p t l).1.stats = es.stats := rfl

@[simp]
theorem handlePhaseError_stats (es : LifecycleEngine) (msg : String)
    (p : LifecyclePhase) : (handlePhaseError es msg p).1.stats = es.stats := rfl

@[simp]
theorem handleLifecycleError_state (es : LifecycleEngine) :
    (handleLifecycleError es).1.state = es.state := rfl

@[simp]
theorem handleLifecycleError_stats (es : LifecycleEngine) :
    (handleLifecycleError es).1.stats = es.stats := rfl

/-- Running `executePhase` only touches the per-phase statistics; the global
counters are unchanged. -/
theorem executePhase_globalStats (es : LifecycleEngine) (c : LifecycleContext)
    (p : LifecyclePhase) (hctx : es.context = some c) :
    (executePhase es p).1.stats.totalExecutions = es.stats.totalExecutions ∧
    (executePhase es p).1.stats.successfulExecutions =
      es.stats.successfulExecutions ∧
    (executePhase es p).1.stats.failedExecutions = es.stats.failedExecutions := by
  rcases hrm : runModules (phaseEntryEngine es p) (es.modules p) with ⟨esM, trM, rM⟩
  have hstats : esM.stats = es.stats := by
    have hpres := (runModules_pres (es.modules p) (phaseEntryEngine es p)).2.2.2.2.2.1
    rw [hrm] at hpres
    simp only at hpres
    exact hpres.trans (phaseEntryEngine_fields es p).2.2.2.2
  rw [executePhase_run es c p hctx esM trM rM hrm]
  rcases rM with _ | msg <;>
    exact ⟨by simp [phaseStatsUpdate, hstats], by simp [phaseStatsUpdate, hstats],
      by simp [phaseStatsUpdate, hstats]⟩

/-- The phase loop under C5's scenario: Preparation succeeds, the first
Validation module exhausts its budget, `continueOnError` is off — the loop
stops at Validation with the failure; no Execution/Monitoring/Cleanup
module ever runs (the `execute` count is exactly the Preparation modules
plus the failing module's attempts), no Critical event is emitted by the
loop, and state and global statistics pass through unchanged. -/
theorem runPhases_C5 (es : LifecycleEngine) (c : LifecycleContext)
    (mf : LifecycleModule) (vrest : List LifecycleModule)
    (hctx : es.context = some c)
    (hco : es.config.continueOnError = false)
    (hprep : ∀ m ∈ es.modules .preparation, m.execOutcome 0 = true)
    (hval : es.modules .validation = mf :: vrest)
    (hf : ∀ n, mf.execOutcome n = false) :
    (runPhases es startPhaseOrder).2.2 = some mf.name ∧
    (runPhases es startPhaseOrder).2.1.countP EngineAction.isExec =
      (es.modules .preparation).length + (es.config.maxRetries + 1) ∧
    (runPhases es startPhaseOrder).2.1.countP (EngineAction.isEmitLevel .critical)
      = 0 ∧
    (runPhases es startPhaseOrder).1.state = es.state ∧
    (runPhases es startPhaseOrder).1.stats.failedExecutions =
      es.stats.failedExecutions := by
  obtain ⟨s_res, s_count, s_crit, _, _, _, s_cfg, s_mods, s_obs, s_state,
    c1, hc1, _, _, _⟩ := executePhase_success es c .preparation hctx hprep
  obtain ⟨_, _, g3⟩ := executePhase_globalStats es c .preparation hctx
  simp only [startPhaseOrder, runPhases]
  rcases h1 : executePhase es .preparation with ⟨es1, tr1, r1⟩
  rw [h1] at s_res s_count s_crit s_cfg s_mods s_obs s_state hc1 g3
  dsimp only at s_res s_count s_crit s_cfg s_mods s_obs s_state hc1 g3
  subst s_res
  obtain ⟨f_res, f_filter, f_perr, f_obsE, f_crit, _, _, f_cfg, f_mods, f_obs,
    f_state, c2, hc2, _, _, _⟩ :=
    executePhase_headfail es1 c1 .validation mf vrest hc1
      (by rw [s_mods]; exact hval) hf
  obtain ⟨_, _, g3'⟩ := executePhase_globalStats es1 c1 .validation hc1
  rcases h2 : executePhase es1 .validation with ⟨es2, tr2, r2⟩
  rw [h2] at f_res f_filter f_perr f_obsE f_crit f_cfg f_mods f_obs f_state hc2 g3'
  dsimp only at f_res f_filter f_perr f_obsE f_crit f_cfg f_mods f_obs f_state hc2 g3'
  have hr2 : r2 = some mf.name := by
    rw [f_res, s_cfg, hco]
    simp
  subst hr2
  dsimp only
  refine ⟨rfl, ?_, ?_, ?_, ?_⟩
  · rw [List.countP_append, s_count]
    rw [List.countP_eq_length_filter, f_filter, List.length_map,
      List.length_range, s_cfg]
  · rw [List.countP_append, s_crit, f_crit]
  · rw [f_state, s_state]
  · rw [g3', g3]

/-- C5: with `continueOnError` off (the default), a Validation module that
fails after exhausting retries aborts the run: no Execution (or later)
module runs — the only `execute` calls of `start()` are the Preparation
modules' single attempts and the failing module's `maxRetries + 1`
attempts — the engine state becomes `Error`, the global failed-execution
counter increments by one, exactly one Critical-level event is emitted, and
`start()` re-raises the failure. -/
theorem C5_validation_abort (es : LifecycleEngine) (c : LifecycleContext)
    (mf : LifecycleModule) (vrest : List LifecycleModule)
    (hco : es.config.continueOnError = false)
    (hstate : es.state = .stopped)
    (hctx : es.context = some c)
    (hprep : ∀ m ∈ es.modules .preparation, m.execOutcome 0 = true)
    (hval : es.modules .validation = mf :: vrest)
    (hf : ∀ n, mf.execOutcome n = false) :
    (startEngine es).1.state = .error ∧
    (startEngine es).1.stats.failedExecutions = es.stats.failedExecutions + 1 ∧
    (startEngine es).2.1.countP (EngineAction.isEmitLevel .critical) = 1 ∧
    (startEngine es).2.1.countP EngineAction.isExec =
      (es.modules .preparation).length + (es.config.maxRetries + 1) ∧
    (startEngine es).2.2 = some (.moduleFailure mf.name) := by
  simp only [startEngine]
  rw [if_neg (by rw [hstate]; decide)]
  dsimp only
  rw [if_neg (by rw [hstate]; simp)]
  set esR := (logEvent { es with state := .running } .initialization
    "lifecycle_start" .info).1 with hesR
  have hshapeR : ctxShape esR.context =
      some (c.currentPhase, c.previousPhase, c.errors) := by
    rw [hesR, logEvent_ctxShape]
    show ctxShape es.context = _
    rw [hctx]
    rfl
  obtain ⟨c2, hc2, _, _, _⟩ := ctxShape_eq_some _ _ _ _ hshapeR
  have hRcfg : esR.config = es.config := rfl
  have hRmods : esR.modules = es.modules := rfl
  have hRstats : esR.stats = es.stats := rfl
  have hRstate : esR.state = .running := rfl
  obtain ⟨p_res, p_count, p_crit, p_state, p_failed⟩ :=
    runPhases_C5 esR c2 mf vrest hc2 (by rw [hRcfg]; exact hco)
      (by rw [hRmods]; exact hprep) (by rw [hRmods]; exact hval) hf
  rcases hP : runPhases esR startPhaseOrder with ⟨esP, trP, rP⟩
  rw [hP] at p_res p_count p_crit p_state p_failed
  dsimp only at p_res p_count p_crit p_state p_failed
  subst p_res
  dsimp only
  refine ⟨?_, ?_, ?_, ?_, rfl⟩
  · rw [handleLifecycleError_state]
  · rw [handleLifecycleError_stats]
    simp only [p_failed, hRstats]
  · simp only [handleLifecycleError_acts, List.nil_append, List.countP_append,
      List.countP_cons, p_crit]
    simp [EngineAction.isEmitLevel]
  · simp only [handleLifecycleError_acts, List.nil_append, List.countP_append,
      List.countP_cons, p_count, hRmods, hRcfg]
    simp [EngineAction.isExec]

/-- A `Stopped`, context-carrying engine with one succeeding Preparation
module and one always-failing Validation module, default configuration. -/
def c5Engine : LifecycleEngine :=
  { state := .stopped
    currentPhase := none
    modules := fun p =>
      if p = .preparation then [demoModule]
      else if p = .validation then [c3FailModule]
      else []
    observers := []
    eventHistory := []
    stats := emptyStats
    config := defaultConfig
    context := some initialCtx
    eventCounter := 0 }

/-- C5, witness: the concrete engine aborts with state `Error`, one failed
execution, one Critical event, `1 + 4` execute calls, and the re-raised
failure. -/
theorem C5_validation_abort_witness :
    (startEngine c5Engine).1.state = .error ∧
    (startEngine c5Engine).1.stats.failedExecutions = 1 ∧
    (startEngine c5Engine).2.1.countP (EngineAction.isEmitLevel .critical) = 1 ∧
    (startEngine c5Engine).2.1.countP EngineAction.isExec = 5 ∧
    (startEngine c5Engine).2.2 = some (.moduleFailure "validator-x") :=
  C5_validation_abort c5Engine initialCtx c3FailModule [] rfl rfl rfl
    (fun m hm => by
      simp only [c5Engine, if_pos] at hm
      rw [List.mem_singleton.mp hm]
      rfl)
    rfl (fun _ => rfl)

/-! ### Registration scheduling and the module `phase` field (C10) -/

/-- Re-tag every event emission with the given phase (what changing a
module's `phase` field does to the events of its execution). -/
def retagEmit (q : LifecyclePhase) : EngineAction → EngineAction
  | .emit _ ty lv => .emit q ty lv
  | a => a

/-- The retry loop's actions and result do not depend on the engine value,
and changing the module's `phase` field only re-tags the emitted events. -/
theorem executeModuleGo_retag (cfg : LifecycleConfig) (m : LifecycleModule)
    (q : LifecyclePhase) :
    ∀ (f r : Nat) (es es' : LifecycleEngine),
    (executeModuleGo cfg { m with phase := q } r f es').2.1 =
      (executeModuleGo cfg m r f es).2.1.map (retagEmit q) ∧
    (executeModuleGo cfg { m with phase := q } r f es').2.2 =
      (executeModuleGo cfg m r f es).2.2 := by
  intro f
  induction f with
  | zero => intro r es es'; exact ⟨rfl, rfl⟩
  | succ f ih =>
      intro r es es'
      simp only [executeModuleGo, logEvent_act]
      rcases h : m.execOutcome r with _ | _
      · by_cases hr : r + 1 > cfg.maxRetries <;> simp only [hr, if_true, if_false]
        · simp [retagEmit]
        · obtain ⟨ha, hb⟩ := ih (r + 1)
            (logEvent (logEvent es m.phase "module_execute_start" .debug).1
              m.phase "module_execute_retry" .warn).1
            (logEvent (logEvent es' q "module_execute_start" .debug).1
              q "module_execute_retry" .warn).1
          simp [retagEmit, ha, hb]
      · simp [retagEmit]

/-- The first attempt of the retry loop is always issued. -/
theorem executeModule_attempt0 (es : LifecycleEngine) (m : LifecycleModule) :
    EngineAction.moduleExecute m.name 0 ∈ (executeModule es m).2.1 := by
  rw [executeModule]
  simp only [executeModuleGo, logEvent_act]
  rcases h : m.execOutcome 0 with _ | _
  · by_cases hr : 0 + 1 > es.config.maxRetries <;> simp [hr]
  · simp

/-- C10: (1) `registerModule(p, m)` appends `m` to the registry list of the
*phase argument* `p` and leaves every other phase's list unchanged — the
module's own `phase` field plays no role in scheduling; (2) a module
registered to `p` runs when `p` is executed even when its `phase` field
names a different phase; (3) every event emitted during the module's
execution is tagged with the module's `phase` field; (4) changing the
`phase` field changes nothing else: the executor's action sequence is the
same up to re-tagging those events, and its success/failure outcome is
identical. -/
theorem C10_registration_schedules :
    (∀ (es : LifecycleEngine) (p : LifecyclePhase) (m : LifecycleModule),
      (registerModule es p m).1.modules p = es.modules p ++ [m] ∧
      ∀ q, q ≠ p → (registerModule es p m).1.modules q = es.modules q) ∧
    (∀ (es : LifecycleEngine) (c : LifecycleContext) (p : LifecyclePhase)
        (m : LifecycleModule),
      es.context = some c → es.modules p = [m] → m.phase ≠ p →
      EngineAction.moduleExecute m.name 0 ∈ (executePhase es p).2.1) ∧
    (∀ (es : LifecycleEngine) (m : LifecycleModule),
      ∀ a ∈ (executeModule es m).2.1,
      ∀ ph ty lv, a = .emit ph ty lv → ph = m.phase) ∧
    (∀ (es : LifecycleEngine) (m : LifecycleModule) (q : LifecyclePhase),
      (executeModule es { m with phase := q }).2.1 =
        (executeModule es m).2.1.map (retagEmit q) ∧
      (executeModule es { m with phase := q }).2.2 =
        (executeModule es m).2.2) := by
  refine ⟨?_, ?_, ?_, ?_⟩
  · intro es p m
    constructor
    · simp [registerModule]
    · intro q hq
      simp [registerModule, hq]
  · intro es c p m hctx hmods hphase
    rcases hrm : runModules (phaseEntryEngine es p) (es.modules p) with ⟨esM, trM, rM⟩
    have hmem : EngineAction.moduleExecute m.name 0 ∈ trM := by
      have h0 := executeModule_attempt0 (phaseEntryEngine es p) m
      rw [hmods] at hrm
      rcases hex : executeModule (phaseEntryEngine es p) m with ⟨esX, trX, rX⟩
      rw [hex] at h0
      simp only [runModules, hex] at hrm
      rcases rX with _ | msg
      · simp only [runModules, List.append_nil] at hrm
        injection hrm with hA hBC
        injection hBC with hB hC
        rw [← hB]
        exact h0
      · injection hrm with hA hBC
        injection hBC with hB hC
        rw [← hB]
        exact h0
    rw [executePhase_run es c p hctx esM trM rM hrm]
    rcases rM with _ | msg <;> simp [hmem]
  · intro es m a ha ph ty lv haeq
    subst haeq
    have := executeModule_acts es m _ ha
    exact this.1
  · intro es m q
    have h := executeModuleGo_retag es.config m q (es.config.maxRetries + 1) 0 es es
    simpa [executeModule] using h

/-- A module whose `phase` field (`Execution`) disagrees with the phase it
is registered to (`Preparation`). -/
def c10Module : LifecycleModule :=
  { name := "mismatched", version := "1.0.0", phase := .execution,
    isInitialized := false, execOutcome := fun _ => true }

/-- Engine with the mismatched module registered to Preparation. -/
def c10Engine : LifecycleEngine :=
  { state := .stopped
    currentPhase := none
    modules := fun p => if p = .preparation then [c10Module] else []
    observers := []
    eventHistory := []
    stats := emptyStats
    config := defaultConfig
    context := some initialCtx
    eventCounter := 0 }

/-- C10, witness: registration appends under the phase argument only, the
mismatched module still runs when Preparation executes, and flipping its
`phase` field merely re-tags its events. -/
theorem C10_registration_schedules_witness :
    ((registerModule c3Engine .monitoring demoModule).1.modules .monitoring =
      c3Engine.modules .monitoring ++ [demoModule] ∧
     (registerModule c3Engine .monitoring demoModule).1.modules .cleanup =
      c3Engine.modules .cleanup) ∧
    EngineAction.moduleExecute "mismatched" 0 ∈
      (executePhase c10Engine .preparation).2.1 ∧
    (executeModule c10Engine { c10Module with phase := .cleanup }).2.1 =
      (executeModule c10Engine c10Module).2.1.map (retagEmit .cleanup) :=
  ⟨⟨(C10_registration_schedules.1 c3Engine .monitoring demoModule).1,
    (C10_registration_schedules.1 c3Engine .monitoring demoModule).2 .cleanup
      (by decide)⟩,
   C10_registration_schedules.2.1 c10Engine initialCtx .preparation c10Module
     rfl rfl (by decide),
   (C10_registration_schedules.2.2.2 c10Engine c10Module .cleanup).1⟩

/-! ### Observer phase hooks (C2) -/

theorem notifyObserversError_no_hook (es : LifecycleEngine) (p : LifecyclePhase)
    (n : String) :
    (notifyObserversError es p).countP (EngineAction.isHookNamed n) = 0 := by
  simp [notifyObserversError, List.countP_map, Function.comp]
  intro a _ _ _ ha
  subst ha
  rfl

/-- Running `executePhase` never invokes any observer hook by name: the guards
`onStartMethod in this.observers.values()` and
`onCompleteMethod in this.observers.values()` test property names of the
`Set` iterator object and are false for every computed hook name, so
`notifyObserversByMethod` is unreachable from `executePhase`. -/
theorem executePhase_no_hook (es : LifecycleEngine) (p : LifecyclePhase)
    (n : String) :
    (executePhase es p).2.1.countP (EngineAction.isHookNamed n) = 0 := by
  have main : ∀ (esx : LifecycleEngine) (cx : LifecycleContext),
      esx.context = some cx →
      (executePhase esx p).2.1.countP (EngineAction.isHookNamed n) = 0 := by
    intro esx cx hctx
    rcases hrm : runModules (phaseEntryEngine esx p) (esx.modules p) with ⟨esM, trM, rM⟩
    have hz : trM.countP (EngineAction.isHookNamed n) = 0 := by
      refine List.countP_eq_zero.mpr (fun a ha => ?_)
      obtain ⟨m, _, hact⟩ := runModules_acts (esx.modules p) (phaseEntryEngine esx p) a
        (by rw [hrm]; exact ha)
      simp [monly_no_hook m a n hact]
    rw [executePhase_run esx cx p hctx esM trM rM hrm]
    rcases rM with _ | msg
    · simp only [List.countP_cons, List.countP_append, hz]
      simp [EngineAction.isHookNamed]
    · simp only [handlePhaseError_acts, List.countP_cons, List.countP_append, hz,
        notifyObserversError_no_hook]
      simp [EngineAction.isHookNamed]
  rcases h : es.context with _ | c
  · rw [executePhase_context_none es p h]
    exact main _ _ rfl
  · exact main es c h

/-- An observer that defines the Initialization and Preparation
start/complete hooks and the error hook. -/
def c2Observer : LifecycleObserver :=
  ⟨["onInitializationStart", "onInitializationComplete",
    "onPreparationStart", "onPreparationComplete", "onError"]⟩

/-- A fresh engine with that observer registered. -/
def c2Engine : LifecycleEngine :=
  (addObserver (mkEngine defaultConfig) c2Observer).1

/-- C2: evaluation of the code at the failing input, plus the general fact.
A fresh engine with an observer defining `onPreparationStart` and
`onPreparationComplete` is started; `start()` completes normally, the
initialization hooks fire (they are dispatched directly via
`notifyObservers`, without the broken guard), yet neither Preparation hook
is ever invoked — and in general no `executePhase` ever invokes an observer
hook, because `methodName in this.observers.values()` is false for every
hook name. -/
theorem C2_hooks_never_invoked :
    (∀ (es : LifecycleEngine) (p : LifecyclePhase) (n : String),
      (executePhase es p).2.1.countP (EngineAction.isHookNamed n) = 0) ∧
    (startEngine c2Engine).2.1.countP
      (EngineAction.isHookNamed "onPreparationStart") = 0 ∧
    (startEngine c2Engine).2.1.countP
      (EngineAction.isHookNamed "onPreparationComplete") = 0 ∧
    (startEngine c2Engine).2.1.countP
      (EngineAction.isHookNamed "onInitializationStart") = 1 ∧
    (startEngine c2Engine).2.1.countP
      (EngineAction.isHookNamed "onInitializationComplete") = 1 ∧
    (startEngine c2Engine).2.2 = none :=
  ⟨executePhase_no_hook, by decide, by decide, by decide, by decide, by decide⟩

/-! ### Listener fan-out and the event loop (C8)

`notifyListeners` (lines 222-235) is `async`: its synchronous segment calls
every registered listener in order and collects the returned promises; its
asynchronous remainder awaits `Promise.all` of them.  `logEvent`
(line 210) invokes `this.notifyListeners(fullEvent)` WITHOUT `await` — it
is a synchronous `void` method — so the emitting call returns right after
the listeners' synchronous segments, and the deferred listener completions
are microtasks which the JS event loop runs only after the currently
executing synchronous code, i.e. after the engine's next synchronous
action. -/

/-- A registered listener: `sync` is the trace of its synchronous segment
(run when `listener(event)` is called in the loop), `deferred` is `some
acts` when the listener returns a promise whose continuation performs
`acts` (only such results are pushed onto `promises`); a synchronous
listener has `deferred = none`. -/
structure ListenerCb where
  sync : List String
  deferred : Option (List String)

/-- The `for (const listener of this.listeners)` loop of `notifyListeners`:
run each listener's synchronous segment, collect the returned promises in
order. -/
def notifyListenersLoop : List ListenerCb → List String × List (List String)
  | [] => ([], [])
  | l :: rest =>
      let r := notifyListenersLoop rest
      (l.sync ++ r.1,
       match l.deferred with
       | some d => d :: r.2
       | none => r.2)

/-- One `logEvent` emission followed by the engine's next synchronous
action, under JS event-loop semantics: `logEvent` runs the listeners'
synchronous segments and returns (the un-awaited promise of
`notifyListeners` holds the deferred completions); the engine's next
synchronous action runs; only then does the event loop drain the queued
listener completions (in order — `Promise.all` awaits them all). -/
def emitThenNextActual (ls : List ListenerCb) (next : String) : List String :=
  (notifyListenersLoop ls).1 ++ [next] ++ (notifyListenersLoop ls).2.join

/-- The ordering asserted by the claim (spec clause (c)): all
listener-returned asynchronous completions are sequenced before the
emitting call returns, hence before the engine's next action.  (Spec-side
definition, for comparison with `emitThenNextActual`.) -/
def emitThenNextClaimed (ls : List ListenerCb) (next : String) : List String :=
  (notifyListenersLoop ls).1 ++ (notifyListenersLoop ls).2.join ++ [next]

/-- C8, counterexample: with a single listener that performs work after an
internal `await`, the actual order runs the engine's next action before the
listener's completion, not after it as the claim asserts. -/
theorem C8_counterexample :
    emitThenNextActual [⟨["listener sync part"], some ["listener completion"]⟩]
        "engine next action" ≠
      emitThenNextClaimed [⟨["listener sync part"], some ["listener completion"]⟩]
        "engine next action" := by
  decide

/-- C8, amended: every event emission synchronously invokes every
registered listener (all their synchronous segments run, in registration
order, before the emitting call returns) and `notifyListeners` collects and
awaits every returned promise; but since `logEvent` does not await
`notifyListeners`, the listeners' asynchronous completions run after the
engine's next synchronous action, not before it. -/
theorem C8_fanout_after_next (ls : List ListenerCb) (next : String) :
    emitThenNextActual ls next =
      ls.bind (fun l => l.sync) ++ [next] ++
        (ls.filterMap (fun l => l.deferred)).join := by
  have h1 : ∀ ls' : List ListenerCb,
      (notifyListenersLoop ls').1 = ls'.bind (fun l => l.sync) := by
    intro ls'
    induction ls' with
    | nil => rfl
    | cons l rest ih => simp [notifyListenersLoop, ih]
  have h2 : ∀ ls' : List ListenerCb,
      (notifyListenersLoop ls').2 = ls'.filterMap (fun l => l.deferred) := by
    intro ls'
    induction ls' with
    | nil => rfl
    | cons l rest ih =>
        rcases h : l.deferred with _ | d <;>
          simp [notifyListenersLoop, ih, List.filterMap_cons, h]
  rw [emitThenNextActual, h1, h2]

end DjangoDome
